import Mathlib

/-
Verification of the audit framework backend (FastAPI + SQLAlchemy service).

The development shallowly embeds the change-tracking core of the repository:

  * backend/app/services/javers_service.py  (JaversService: transaction scope,
    commit_changes, _extract_entity_values, get_changes_for_transaction,
    get_entity_history)
  * backend/app/api/transactions.py         (batch executor
    execute_transaction_operations, the per-entity handlers
    _execute_user_operation / _execute_product_operation,
    create/complete/delete transaction endpoints)
  * backend/app/api/users.py, products.py   (standalone CRUD endpoints that
    also append audit entries)
  * backend/app/models/transaction.py, audit_log.py (record shapes)

Python scalar values are modelled by an inductive `Value`; Python objects and
dicts are modelled as association lists from field name to `Value` in
insertion order (mirroring an instance __dict__ or a dict literal).
Machine-level concerns (HTTP, JSON wire format, SQLAlchemy sessions) are
abstracted: a database is a record of in-memory tables, a session flush is
mutation of a working copy, a commit publishes the working copy, a rollback
discards it.  Fallible store interactions (primary commit, per-entry audit
append) are parametrised by injected fault flags, since their success depends
on the environment.
-/

/-- Python scalar values as they appear in the tracked entities and payloads:
None, strings, ints, bools and datetime values (a datetime is abstracted to a
Nat tick; its isoformat rendering is abstracted to `toString`). -/
inductive Value where
  | vNone : Value
  | vStr (s : String) : Value
  | vInt (n : Int) : Value
  | vBool (b : Bool) : Value
  | vDate (t : Nat) : Value
deriving DecidableEq, Repr

namespace Value

/-- Numeric view used by Python equality: bools compare equal to their int
value (True == 1, False == 0). -/
def pyNum : Value → Option Int
  | vInt n => some n
  | vBool b => some (if b then 1 else 0)
  | _ => none

/-- Whether a value is a datetime (the snapshot extractor normalizes these). -/
def isDate : Value → Bool
  | vDate _ => true
  | _ => false

/-- Python str() of a scalar, as used for entity_id stamping
(str(getattr(entity, "id", "unknown"))). -/
def pyStr : Value → String
  | vNone => "None"
  | vStr s => s
  | vInt n => toString n
  | vBool b => if b then "True" else "False"
  | vDate t => toString t

end Value

export Value (vNone vStr vInt vBool vDate)

/-- Python == on scalars: numeric values (ints and bools) compare by numeric
value, everything else by structural equality. -/
def pyEq (a b : Value) : Bool :=
  match a.pyNum, b.pyNum with
  | some m, some n => decide (m = n)
  | _, _ => decide (a = b)

/-- A Python object attribute map or dict: field name to value, in insertion
order, keys unique in any state the program builds. -/
abbrev Obj := List (String × Value)

/-- Attribute lookup: getattr(obj, f) when present, none models absence
(hasattr false). First matching key wins, as in a dict. -/
def lookupField (obj : Obj) (f : String) : Option Value :=
  match obj with
  | [] => none
  | (k, v) :: rest => if k = f then some v else lookupField rest f

/-- setattr on an existing or new attribute: replaces the first binding of
the key, or appends the key if absent (dict insertion order semantics). -/
def setField (obj : Obj) (f : String) (v : Value) : Obj :=
  match obj with
  | [] => [(f, v)]
  | (k, w) :: rest => if k = f then (k, v) :: rest else (k, w) :: setField rest f v

/-- Attribute read totalized with None, used to build the fixed-field
old-value and snapshot dicts (on rows built by the program the listed
attributes are always present). -/
def getF (obj : Obj) (f : String) : Value :=
  (lookupField obj f).getD vNone

/-- The update-and-diff loop shared verbatim by _execute_user_operation and
_execute_product_operation (transactions.py lines 288-294 and 415-421):

    changed_fields = []
    for field, value in user_data.items():
        if hasattr(db_user, field):
            old_value = getattr(db_user, field)
            if old_value != value:
                setattr(db_user, field, value)
                changed_fields.append(field)

Returns the mutated entity and the changed-field list in append order. -/
def applyUpdates (ent : Obj) (payload : List (String × Value)) : Obj × List String :=
  match payload with
  | [] => (ent, [])
  | (f, v) :: rest =>
    match lookupField ent f with
    | none => applyUpdates ent rest
    | some old =>
      if pyEq old v then applyUpdates ent rest
      else
        let r := applyUpdates (setField ent f v) rest
        (r.1, f :: r.2)

lemma lookupField_setField_ne (obj : Obj) (f g : String) (v : Value) (h : g ≠ f) :
    lookupField (setField obj f v) g = lookupField obj g := by
  induction obj with
  | nil =>
    have : ¬ f = g := fun hh => h hh.symm
    simp [setField, lookupField, this]
  | cons kv rest ih =>
    obtain ⟨k, w⟩ := kv
    by_cases hk : k = f
    · subst hk
      have : ¬ k = g := fun hh => h hh.symm
      simp [setField, lookupField, this]
    · simp only [setField, if_neg hk, lookupField]
      by_cases hg : k = g
      · simp [hg]
      · simp [hg, ih]

/-- Every changed field comes from the payload keys. -/
lemma applyUpdates_changed_subset (ent : Obj) (payload : List (String × Value)) :
    ∀ f ∈ (applyUpdates ent payload).2, f ∈ payload.map Prod.fst := by
  induction payload generalizing ent with
  | nil => simp [applyUpdates]
  | cons fv rest ih =>
    obtain ⟨f, v⟩ := fv
    intro g hg
    cases hl : lookupField ent f with
    | none =>
      simp only [applyUpdates, hl] at hg
      exact List.mem_cons_of_mem _ (ih ent g hg)
    | some old =>
      simp only [applyUpdates, hl] at hg
      by_cases he : pyEq old v
      · rw [if_pos he] at hg
        exact List.mem_cons_of_mem _ (ih ent g hg)
      · rw [if_neg he] at hg
        rcases List.mem_cons.mp hg with h1 | h2
        · simp [h1]
        · exact List.mem_cons_of_mem _ (ih _ g h2)

/-- Fields absent from the entity stay absent through the update loop:
setattr is only invoked on keys that pass the hasattr check. -/
lemma applyUpdates_lookup_none (ent : Obj) (payload : List (String × Value))
    (f : String) (h : lookupField ent f = none) :
    lookupField (applyUpdates ent payload).1 f = none := by
  induction payload generalizing ent with
  | nil => simpa [applyUpdates]
  | cons gv rest ih =>
    obtain ⟨g, v⟩ := gv
    cases hl : lookupField ent g with
    | none => simp only [applyUpdates, hl]; exact ih ent h
    | some old =>
      simp only [applyUpdates, hl]
      by_cases he : pyEq old v
      · rw [if_pos he]; exact ih ent h
      · rw [if_neg he]
        have hgf : f ≠ g := by
          intro hh; rw [hh, hl] at h; exact Option.noConfusion h
        exact ih (setField ent g v) (by rw [lookupField_setField_ne ent g f v hgf]; exact h)

/-- Diff-loop characterization: under distinct payload keys (a Python dict),
a field is in the changed list iff it occurs in the payload, is an attribute
of the entity, and its stored value differs (Python !=) from the payload
value. -/
lemma mem_applyUpdates_changed (ent : Obj) (payload : List (String × Value))
    (hnd : (payload.map Prod.fst).Nodup) (f : String) :
    f ∈ (applyUpdates ent payload).2 ↔
      ∃ v, (f, v) ∈ payload ∧ ∃ w, lookupField ent f = some w ∧ pyEq w v = false := by
  induction payload generalizing ent with
  | nil => simp [applyUpdates]
  | cons gv rest ih =>
    obtain ⟨g, v⟩ := gv
    have hnd' : (rest.map Prod.fst).Nodup := (List.nodup_cons.mp hnd).2
    have hgn : g ∉ rest.map Prod.fst := (List.nodup_cons.mp hnd).1
    cases hl : lookupField ent g with
    | none =>
      simp only [applyUpdates, hl]
      rw [ih ent hnd']
      constructor
      · rintro ⟨w, hw, u, hu, hne⟩
        exact ⟨w, List.mem_cons_of_mem _ hw, u, hu, hne⟩
      · rintro ⟨w, hw, u, hu, hne⟩
        rcases List.mem_cons.mp hw with h1 | h2
        · exfalso
          have : f = g := congrArg Prod.fst h1
          rw [this, hl] at hu; exact Option.noConfusion hu
        · exact ⟨w, h2, u, hu, hne⟩
    | some old =>
      simp only [applyUpdates, hl]
      by_cases he : pyEq old v
      · rw [if_pos he, ih ent hnd']
        constructor
        · rintro ⟨w, hw, u, hu, hne⟩
          exact ⟨w, List.mem_cons_of_mem _ hw, u, hu, hne⟩
        · rintro ⟨w, hw, u, hu, hne⟩
          rcases List.mem_cons.mp hw with h1 | h2
          · exfalso
            have hf : f = g := congrArg Prod.fst h1
            have hv : w = v := congrArg Prod.snd h1
            rw [hf, hl] at hu
            have hou : old = u := by injection hu
            rw [← hou, hv] at hne
            rw [he] at hne; exact Bool.noConfusion hne
          · exact ⟨w, h2, u, hu, hne⟩
      · rw [if_neg he]
        by_cases hf : f = g
        · subst hf
          constructor
          · intro _
            exact ⟨v, List.mem_cons_self _ _, old, hl, Bool.eq_false_iff.mpr he⟩
          · intro _
            exact List.mem_cons_self _ _
        · constructor
          · intro hmem
            rcases List.mem_cons.mp hmem with h1 | h2
            · exact absurd h1 hf
            · have := (ih (setField ent g v) hnd').mp h2
              rcases this with ⟨w, hw, u, hu, hne⟩
              rw [lookupField_setField_ne ent g f v hf] at hu
              exact ⟨w, List.mem_cons_of_mem _ hw, u, hu, hne⟩
          · rintro ⟨w, hw, u, hu, hne⟩
            rcases List.mem_cons.mp hw with h1 | h2
            · exact absurd (congrArg Prod.fst h1) hf
            · apply List.mem_cons_of_mem
              apply (ih (setField ent g v) hnd').mpr
              refine ⟨w, h2, u, ?_, hne⟩
              rw [lookupField_setField_ne ent g f v hf]; exact hu

/-- A field never in the changed list when it is not an attribute. -/
lemma applyUpdates_changed_not_mem (ent : Obj) (payload : List (String × Value))
    (f : String) (h : lookupField ent f = none) :
    f ∉ (applyUpdates ent payload).2 := by
  induction payload generalizing ent with
  | nil => simp [applyUpdates]
  | cons gv rest ih =>
    obtain ⟨g, v⟩ := gv
    cases hl : lookupField ent g with
    | none => simp only [applyUpdates, hl]; exact ih ent h
    | some old =>
      simp only [applyUpdates, hl]
      by_cases he : pyEq old v
      · rw [if_pos he]; exact ih ent h
      · rw [if_neg he]
        intro hmem
        rcases List.mem_cons.mp hmem with h1 | h2
        · rw [h1, hl] at h; exact Option.noConfusion h
        · have hgf : f ≠ g := by
            intro hh; rw [hh, hl] at h; exact Option.noConfusion h
          exact ih (setField ent g v)
            (by rw [lookupField_setField_ne ent g f v hgf]; exact h) h2

/-- An entity as handed to JaversService.commit_changes: either a live ORM
object (carrying its Python class name and attribute dict) or a plain dict
snapshot (used by the delete paths). -/
inductive EntityRep where
  | orm (cls : String) (attrs : Obj) : EntityRep
  | dict (m : Obj) : EntityRep
deriving DecidableEq, Repr

/-- entity.__class__.__name__ as seen by commit_changes; a plain dict reports
the Python class name dict. -/
def reprClassName : EntityRep → String
  | .orm cls _ => cls
  | .dict _ => "dict"

/-- str(getattr(entity, "id", "unknown")): an ORM object exposes its id
attribute, a plain dict has no attributes so the default is used. -/
def reprIdStr : EntityRep → String
  | .orm _ attrs =>
    match lookupField attrs "id" with
    | some v => v.pyStr
    | none => "unknown"
  | .dict _ => "unknown"

/-- Datetime values are rendered to their textual form for JSON-safe storage
(JaversService._extract_entity_values); other scalars pass through. -/
def normalizeValue : Value → Value
  | .vDate t => vStr (toString t)
  | v => v

/-- JaversService._extract_entity_values: a dict is copied entry by entry; an
object contributes its attribute dict minus keys starting with an underscore.
Datetimes are normalized in both cases. -/
def extractEntityValues : EntityRep → Obj
  | .dict m => List.map (fun kv : String × Value => (kv.1, normalizeValue kv.2)) m
  | .orm _ attrs =>
    List.map (fun kv : String × Value => (kv.1, normalizeValue kv.2))
      (List.filter (fun kv : String × Value => ¬ kv.1.startsWith "_") attrs)

/-- The JaversService instance state: the process-wide current transaction
binding (current_transaction_id, current_author). -/
structure JaversState where
  current_transaction_id : Option String
  current_author : Option String
deriving DecidableEq, Repr

/-- JaversService.start_transaction: unconditionally binds the given
transaction id and author as the active scope, whatever the previous scope
was. -/
def startTransaction (j : JaversState) (transaction_id : String) (author : String) :
    JaversState :=
  let _ := j
  { current_transaction_id := some transaction_id, current_author := some author }

/-- JaversService.end_transaction: clears the scope. -/
def endTransaction (j : JaversState) : JaversState :=
  let _ := j
  { current_transaction_id := none, current_author := none }

/-- A persisted audit_logs row (backend/app/models/audit_log.py). -/
structure AuditLog where
  id : Nat
  transaction_id : String
  entity_type : String
  entity_id : String
  change_type : String
  old_values : Option Obj
  new_values : Option Obj
  changed_fields : Option (List String)
  author : Option String
  commit_id : String
  commit_date : Nat
  created_at : Nat
deriving DecidableEq, Repr

/-- The audit-entry dict assembled by the batch executor handlers before it
is handed to commit_changes; keys absent from the dict are read back with
.get and so appear as none. -/
structure AuditDraft where
  entity : EntityRep
  message : String
  change_type : String
  old_values : Option Obj
  changed_fields : Option (List String)
  entity_type : Option String
  entity_id : Option String
deriving DecidableEq, Repr

/-- Python truthiness of an optional string: None and the empty string are
falsy (if entity_type and entity_id: ...). -/
def truthyStr : Option String → Bool
  | none => false
  | some s => !s.isEmpty

/-- Python x or y over an optional string with the same truthiness rule. -/
def orElseStr (x : Option String) (y : String) : String :=
  match x with
  | some s => if s.isEmpty then y else s
  | none => y

/-- JaversService.commit_changes: refuses without an active transaction;
otherwise resolves entity_type/entity_id (explicit arguments win when both
are truthy, else they are read off the entity object), extracts new_values
from the entity, and builds the audit row stamped with the scope author, a
fresh commit id and the commit time.  The commit id and the storage-assigned
row id and receipt time are supplied by the caller-side counters. -/
def commitChanges (j : JaversState) (draft : AuditDraft)
    (commit_id : String) (now : Nat) (rowId : Nat) : Except String AuditLog :=
  match j.current_transaction_id with
  | none => .error "No active transaction"
  | some tid =>
    let (etype, eid) :=
      if truthyStr draft.entity_type ∧ truthyStr draft.entity_id then
        (draft.entity_type.getD "", draft.entity_id.getD "")
      else
        (reprClassName draft.entity, reprIdStr draft.entity)
    .ok
      { id := rowId
        transaction_id := tid
        entity_type := etype
        entity_id := eid
        change_type := draft.change_type
        old_values := draft.old_values
        new_values := some (extractEntityValues draft.entity)
        changed_fields := draft.changed_fields
        author := j.current_author
        commit_id := commit_id
        commit_date := now
        created_at := now }

/-- A transactions row (backend/app/models/transaction.py).  The API always
creates rows with status pending and user_id None. -/
structure Txn where
  id : Nat
  transaction_id : String
  description : String
  user_id : Option Int
  status : String
  created_at : Nat
  completed_at : Option Nat
deriving DecidableEq, Repr

/-- The relational store: the two tracked entity tables keyed by primary key,
the transactions table, the audit_logs table, and the autoincrement
counters. -/
structure DB where
  users : List (Int × Obj)
  products : List (Int × Obj)
  transactions : List Txn
  auditLogs : List AuditLog
  nextUserId : Int
  nextProductId : Int
  nextTxnRowId : Nat
  nextAuditRowId : Nat
deriving DecidableEq, Repr

/-- db.query(T).filter(T.id == pk).first(). -/
def lookupRow (tbl : List (Int × Obj)) (pk : Int) : Option Obj :=
  match tbl with
  | [] => none
  | (k, row) :: rest => if k = pk then some row else lookupRow rest pk

/-- Writing the mutated ORM instance back: the row with this primary key is
replaced in place. -/
def replaceRow (tbl : List (Int × Obj)) (pk : Int) (row : Obj) : List (Int × Obj) :=
  tbl.map (fun r => if r.1 = pk then (pk, row) else r)

/-- db.delete(instance): the row with this primary key is removed. -/
def removeRow (tbl : List (Int × Obj)) (pk : Int) : List (Int × Obj) :=
  tbl.filter (fun r => r.1 ≠ pk)

/-- One element of the untyped operations list posted to the execute
endpoint; absent dict keys read back as none through .get. -/
structure RawOp where
  type : Option String
  operation : Option String
  user_id : Option Int
  product_id : Option Int
  data : Option (List (String × Value))
deriving DecidableEq, Repr

/-- The per-operation result dict; keys the source omits in a branch are
none here. -/
structure OpResult where
  rtype : Option String
  op : Option String
  success : Option Bool
  error : Option String
  target_id : Option Int
  old_values : Option Obj
  new_values : Option Obj
  data : Option Obj
deriving DecidableEq, Repr

/-- A soft-failure or fall-through result dict with no audit draft: the
source returns it as a single value, so the two-element unpacking at the call
site raises ValueError.  Success paths return the (result, draft) pair. -/
inductive HandlerOut where
  | pair (res : OpResult) (draft : AuditDraft) : HandlerOut
  | bare (res : OpResult) : HandlerOut
deriving DecidableEq, Repr

/-- The old-values dict captured by the user update branch
(transactions.py lines 280-285). -/
def userOldValues (row : Obj) : Obj :=
  [("username", getF row "username"), ("email", getF row "email"),
   ("full_name", getF row "full_name"), ("is_active", getF row "is_active")]

/-- The pre-delete snapshot dict of the user delete branch
(transactions.py lines 330-336). -/
def userSnapshot (row : Obj) : Obj :=
  [("id", getF row "id"), ("username", getF row "username"),
   ("email", getF row "email"), ("full_name", getF row "full_name"),
   ("is_active", getF row "is_active")]

/-- The echoed data dict of the user create branch. -/
def userCreateData (row : Obj) : Obj :=
  userSnapshot row ++ [("created_at", getF row "created_at")]

/-- The echoed new-values dict of the user update branch. -/
def userNewValues (row : Obj) : Obj :=
  userSnapshot row ++ [("updated_at", getF row "updated_at")]

/-- _execute_user_operation (transactions.py lines 235-357): dispatch on the
operation string; create flushes a new row built from the payload with
is_active defaulting to True, update diffs and mutates an existing row and
stamps updated_at, delete snapshots the row before removing it.  Soft
failures and the unknown-operation fall-through return a bare dict. -/
def execUserOperation (rop : RawOp) (db : DB) (now : Nat) : DB × HandlerOut :=
  let d := rop.data.getD []
  if rop.operation = some "create" then
    let uid := db.nextUserId
    let row : Obj :=
      [("username", (lookupField d "username").getD vNone),
       ("email", (lookupField d "email").getD vNone),
       ("full_name", (lookupField d "full_name").getD vNone),
       ("is_active", (lookupField d "is_active").getD (vBool true)),
       ("id", vInt uid), ("created_at", vDate now)]
    ({ db with users := db.users ++ [(uid, row)], nextUserId := uid + 1 },
     .pair
       { rtype := some "user", op := some "create", success := some true,
         error := none, target_id := some uid, old_values := none,
         new_values := none, data := some (userCreateData row) }
       { entity := .orm "User" row, message := "User created",
         change_type := "CREATED", old_values := none, changed_fields := none,
         entity_type := none, entity_id := none })
  else if rop.operation = some "update" then
    match rop.user_id with
    | none =>
      (db, .bare { rtype := some "user", op := some "update",
                   success := some false, error := some "User not found",
                   target_id := none, old_values := none, new_values := none,
                   data := none })
    | some uid =>
      match lookupRow db.users uid with
      | none =>
        (db, .bare { rtype := some "user", op := some "update",
                     success := some false, error := some "User not found",
                     target_id := none, old_values := none, new_values := none,
                     data := none })
      | some row =>
        let old := userOldValues row
        let upd := applyUpdates row d
        let row2 := setField upd.1 "updated_at" (vDate now)
        ({ db with users := replaceRow db.users uid row2 },
         .pair
           { rtype := some "user", op := some "update", success := some true,
             error := none, target_id := some uid, old_values := some old,
             new_values := some (userNewValues row2), data := none }
           { entity := .orm "User" row2, message := "User updated",
             change_type := "UPDATED", old_values := some old,
             changed_fields := some upd.2, entity_type := none,
             entity_id := none })
  else if rop.operation = some "delete" then
    match rop.user_id with
    | none =>
      (db, .bare { rtype := some "user", op := some "delete",
                   success := some false, error := some "User not found",
                   target_id := none, old_values := none, new_values := none,
                   data := none })
    | some uid =>
      match lookupRow db.users uid with
      | none =>
        (db, .bare { rtype := some "user", op := some "delete",
                     success := some false, error := some "User not found",
                     target_id := none, old_values := none, new_values := none,
                     data := none })
      | some row =>
        let snap := userSnapshot row
        ({ db with users := removeRow db.users uid },
         .pair
           { rtype := some "user", op := some "delete", success := some true,
             error := none, target_id := some uid, old_values := none,
             new_values := none, data := some snap }
           { entity := .dict snap, message := "User deleted",
             change_type := "DELETED", old_values := none,
             changed_fields := none, entity_type := some "User",
             entity_id := some (toString uid) })
  else
    (db, .bare { rtype := some "user", op := rop.operation,
                 success := some false, error := some "Unknown operation",
                 target_id := none, old_values := none, new_values := none,
                 data := none })

/-- The old-values dict captured by the product update branch
(transactions.py lines 406-412). -/
def productOldValues (row : Obj) : Obj :=
  [("name", getF row "name"), ("description", getF row "description"),
   ("price", getF row "price"), ("category", getF row "category"),
   ("stock_quantity", getF row "stock_quantity")]

/-- The pre-delete snapshot dict of the product delete branch
(transactions.py lines 458-465). -/
def productSnapshot (row : Obj) : Obj :=
  [("id", getF row "id"), ("name", getF row "name"),
   ("description", getF row "description"), ("price", getF row "price"),
   ("category", getF row "category"),
   ("stock_quantity", getF row "stock_quantity")]

/-- The echoed data dict of the product create branch. -/
def productCreateData (row : Obj) : Obj :=
  productSnapshot row ++ [("created_at", getF row "created_at")]

/-- The echoed new-values dict of the product update branch. -/
def productNewValues (row : Obj) : Obj :=
  productSnapshot row ++ [("updated_at", getF row "updated_at")]

/-- _execute_product_operation (transactions.py lines 359-486), the product
mirror of the user handler: create defaults stock_quantity to 0, update runs
the same diff loop, delete snapshots before removal. -/
def execProductOperation (rop : RawOp) (db : DB) (now : Nat) : DB × HandlerOut :=
  let d := rop.data.getD []
  if rop.operation = some "create" then
    let pin := db.nextProductId
    let row : Obj :=
      [("name", (lookupField d "name").getD vNone),
       ("description", (lookupField d "description").getD vNone),
       ("price", (lookupField d "price").getD vNone),
       ("category", (lookupField d "category").getD vNone),
       ("stock_quantity", (lookupField d "stock_quantity").getD (vInt 0)),
       ("id", vInt pin), ("created_at", vDate now)]
    ({ db with products := db.products ++ [(pin, row)], nextProductId := pin + 1 },
     .pair
       { rtype := some "product", op := some "create", success := some true,
         error := none, target_id := some pin, old_values := none,
         new_values := none, data := some (productCreateData row) }
       { entity := .orm "Product" row, message := "Product created",
         change_type := "CREATED", old_values := none, changed_fields := none,
         entity_type := none, entity_id := none })
  else if rop.operation = some "update" then
    match rop.product_id with
    | none =>
      (db, .bare { rtype := some "product", op := some "update",
                   success := some false, error := some "Product not found",
                   target_id := none, old_values := none, new_values := none,
                   data := none })
    | some pid =>
      match lookupRow db.products pid with
      | none =>
        (db, .bare { rtype := some "product", op := some "update",
                     success := some false, error := some "Product not found",
                     target_id := none, old_values := none, new_values := none,
                     data := none })
      | some row =>
        let old := productOldValues row
        let upd := applyUpdates row d
        let row2 := setField upd.1 "updated_at" (vDate now)
        ({ db with products := replaceRow db.products pid row2 },
         .pair
           { rtype := some "product", op := some "update", success := some true,
             error := none, target_id := some pid, old_values := some old,
             new_values := some (productNewValues row2), data := none }
           { entity := .orm "Product" row2, message := "Product updated",
             change_type := "UPDATED", old_values := some old,
             changed_fields := some upd.2, entity_type := none,
             entity_id := none })
  else if rop.operation = some "delete" then
    match rop.product_id with
    | none =>
      (db, .bare { rtype := some "product", op := some "delete",
                   success := some false, error := some "Product not found",
                   target_id := none, old_values := none, new_values := none,
                   data := none })
    | some pid =>
      match lookupRow db.products pid with
      | none =>
        (db, .bare { rtype := some "product", op := some "delete",
                     success := some false, error := some "Product not found",
                     target_id := none, old_values := none, new_values := none,
                     data := none })
      | some row =>
        let snap := productSnapshot row
        ({ db with products := removeRow db.products pid },
         .pair
           { rtype := some "product", op := some "delete", success := some true,
             error := none, target_id := some pid, old_values := none,
             new_values := none, data := some snap }
           { entity := .dict snap, message := "Product deleted",
             change_type := "DELETED", old_values := none,
             changed_fields := none, entity_type := some "Product",
             entity_id := some (toString pid) })
  else
    (db, .bare { rtype := some "product", op := rop.operation,
                 success := some false, error := some "Unknown operation",
                 target_id := none, old_values := none, new_values := none,
                 data := none })

/-- A commit-error record of the defensive audit phase
(transactions.py lines 140-144). -/
structure CommitError where
  entity_type : String
  entity_id : String
  error : String
deriving DecidableEq, Repr

/-- The response of an endpoint: an HTTPException status/detail, or the
success body of the execute endpoint carrying the per-operation results and
the audit_commit_errors list (the source attaches that key only when the
list is non-empty; an empty list here models the absent key). -/
inductive ApiResponse where
  | httpError (status : Nat) (detail : String) : ApiResponse
  | ok (results : List OpResult) (audit_commit_errors : List CommitError) : ApiResponse
deriving DecidableEq, Repr

/-- Python str() of the optional operation type, as interpolated into the
unknown-type message. -/
def optStr : Option String → String
  | none => "None"
  | some s => s

/-- The operation loop of execute_transaction_operations (lines 107-121):
dispatch each op dict on its type tag; user and product handlers that return
a (result, draft) pair accumulate both; a bare-dict return fails the
two-element unpacking with a ValueError that aborts the loop; an unknown
type appends an error-only result and continues. -/
def runOps (db : DB) (now : Nat) :
    List RawOp → Except String (DB × List OpResult × List AuditDraft)
  | [] => .ok (db, [], [])
  | rop :: rest =>
    if rop.type = some "user" then
      match execUserOperation rop db now with
      | (db1, .pair res draft) =>
        (runOps db1 now rest).map (fun out => (out.1, res :: out.2.1, draft :: out.2.2))
      | (_, .bare _) => .error "too many values to unpack"
    else if rop.type = some "product" then
      match execProductOperation rop db now with
      | (db1, .pair res draft) =>
        (runOps db1 now rest).map (fun out => (out.1, res :: out.2.1, draft :: out.2.2))
      | (_, .bare _) => .error "too many values to unpack"
    else
      (runOps db now rest).map (fun out =>
        (out.1,
         { rtype := none, op := none, success := none,
           error := some ("Unknown operation type: " ++ optStr rop.type),
           target_id := none, old_values := none, new_values := none,
           data := none } :: out.2.1,
         out.2.2))

/-- The commit-error record built when one audit append fails
(lines 140-144): explicit draft entity_type/entity_id when truthy, else the
entity class name and id attribute. -/
def draftCommitError (draft : AuditDraft) (msg : String) : CommitError :=
  { entity_type := orElseStr draft.entity_type (reprClassName draft.entity)
    entity_id := orElseStr draft.entity_id (reprIdStr draft.entity)
    error := msg }

/-- The defensive audit phase (lines 126-144): after the primary commit each
draft is appended individually through commit_changes; a failing append
(injected by the environment through appendOk, or a commit_changes
exception) is recorded as a commit error and the loop continues with the
next draft.  Returns the appended rows, the commit errors, and the advanced
commit-id and audit-row counters. -/
def auditPhase (j : JaversState) (appendOk : Nat → Bool) (now : Nat) :
    List AuditDraft → Nat → Nat → Nat → List AuditLog × List CommitError × Nat × Nat
  | [], _, cid, aid => ([], [], cid, aid)
  | draft :: rest, i, cid, aid =>
    if appendOk i then
      match commitChanges j draft ("commit-" ++ toString cid) now aid with
      | .ok log =>
        let out := auditPhase j appendOk now rest (i + 1) (cid + 1) (aid + 1)
        (log :: out.1, out.2.1, out.2.2)
      | .error e =>
        let out := auditPhase j appendOk now rest (i + 1) (cid + 1) aid
        (out.1, draftCommitError draft e :: out.2.1, out.2.2)
    else
      let out := auditPhase j appendOk now rest (i + 1) (cid + 1) aid
      (out.1, draftCommitError draft "audit append failed" :: out.2.1, out.2.2)

/-- The full system state: the store plus the process-wide Javers scope and
the logical clock standing in for datetime.now(). -/
structure SysState where
  db : DB
  javers : JaversState
  clock : Nat
deriving DecidableEq, Repr

/-- db.query(Transaction).filter(Transaction.transaction_id == tid).first(). -/
def lookupTxn (tbl : List Txn) (tid : String) : Option Txn :=
  match tbl with
  | [] => none
  | t :: rest => if t.transaction_id = tid then some t else lookupTxn rest tid

/-- Number of audit rows referencing a transaction id (the count query of
complete_transaction, lines 172-174). -/
def auditCount (db : DB) (tid : String) : Nat :=
  (db.auditLogs.filter (fun l => l.transaction_id = tid)).length

/-- execute_transaction_operations (transactions.py lines 81-153).  The
environment injects whether the primary commit would succeed (primaryOk) and
which audit appends would succeed (appendOk).  Flow: 404 when the
transaction is unknown, 400 when it is already completed; otherwise the
Javers scope is rebound, the operation loop runs against a working session,
an exception in the loop or a failing primary commit rolls everything back
to the pre-call store and fails the call with 500; after a successful
primary commit, audit drafts are appended individually with per-entry error
capture and the success body is returned. -/
def executeTransactionOperations (tid : String) (ops : List RawOp)
    (primaryOk : Bool) (appendOk : Nat → Bool) (s : SysState) :
    SysState × ApiResponse :=
  match lookupTxn s.db.transactions tid with
  | none => (s, .httpError 404 "Transaction not found")
  | some t =>
    if t.status = "completed" then
      (s, .httpError 400 "Transaction already completed")
    else
      let j := startTransaction s.javers tid "system"
      match runOps s.db s.clock ops with
      | .error e =>
        ({ s with javers := j }, .httpError 500 ("Transaction failed: " ++ e))
      | .ok (work, results, drafts) =>
        if primaryOk then
          let out := auditPhase j appendOk s.clock drafts 0 work.nextAuditRowId
                       work.nextAuditRowId
          ({ s with
              db := { work with
                        auditLogs := work.auditLogs ++ out.1,
                        nextAuditRowId := out.2.2.2 },
              javers := j },
           .ok results out.2.1)
        else
          ({ s with javers := j },
           .httpError 500 "Transaction failed: primary commit failed")

/-- create_transaction (transactions.py lines 57-79): inserts a pending row
with a fresh uuid (the uuid value is supplied by the environment); a
uniqueness violation on transaction_id makes the commit raise, which rolls
back and fails the call with 500. -/
def createTransaction (tid : String) (description : String) (s : SysState) :
    SysState × ApiResponse :=
  match lookupTxn s.db.transactions tid with
  | some _ => (s, .httpError 500 "Internal server error: duplicate transaction_id")
  | none =>
    let row : Txn :=
      { id := s.db.nextTxnRowId, transaction_id := tid, description := description,
        user_id := none, status := "pending", created_at := s.clock,
        completed_at := none }
    ({ s with db := { s.db with
                        transactions := s.db.transactions ++ [row],
                        nextTxnRowId := s.db.nextTxnRowId + 1 } },
     .ok [] [])

/-- complete_transaction (transactions.py lines 155-187): 404 when unknown,
400 when already completed, 400 when the transaction has no audit rows;
otherwise the row is sealed completed with completed_at set and the Javers
scope is cleared. -/
def completeTransaction (tid : String) (s : SysState) : SysState × ApiResponse :=
  match lookupTxn s.db.transactions tid with
  | none => (s, .httpError 404 "Transaction not found")
  | some t =>
    if t.status = "completed" then
      (s, .httpError 400 "Transaction already completed")
    else if auditCount s.db tid = 0 then
      (s, .httpError 400 "Transaction cannot be completed without any operations. Please add at least one operation before completing.")
    else
      ({ s with
          db := { s.db with
                    transactions := s.db.transactions.map (fun u =>
                      if u.transaction_id = tid then
                        { u with status := "completed", completed_at := some s.clock }
                      else u) },
          javers := endTransaction s.javers },
       .ok [] [])

/-- delete_transaction (transactions.py lines 217-233): removes the
transactions row; its audit rows are left untouched. -/
def deleteTransaction (tid : String) (s : SysState) : SysState × ApiResponse :=
  match lookupTxn s.db.transactions tid with
  | none => (s, .httpError 404 "Transaction not found")
  | some _ =>
    ({ s with db := { s.db with
                        transactions := s.db.transactions.filter
                          (fun t => t.transaction_id ≠ tid) } },
     .ok [] [])

/-- Best-effort audit append used by the standalone CRUD endpoints: when a
scope is bound, commit_changes appends a row; with no scope it raises, the
endpoint turns into an error response, but the already-committed primary
mutation stays. -/
def standaloneAudit (s : SysState) (db1 : DB) (draft : AuditDraft) :
    SysState × ApiResponse :=
  match commitChanges s.javers draft ("commit-" ++ toString db1.nextAuditRowId)
      s.clock db1.nextAuditRowId with
  | .ok log =>
    ({ s with db := { db1 with
                        auditLogs := db1.auditLogs ++ [log],
                        nextAuditRowId := db1.nextAuditRowId + 1 } },
     .ok [] [])
  | .error e =>
    ({ s with db := db1 }, .httpError 500 ("Internal server error: " ++ e))

/-- create_user (users.py lines 52-85): duplicate username or email fails
before any insert; otherwise the row is inserted and committed, then
commit_changes("User created") runs with change_type defaulting to
CREATED. -/
def createUserEndpoint (username email full_name : Value) (is_active : Value)
    (s : SysState) : SysState × ApiResponse :=
  if s.db.users.any (fun r =>
      pyEq (getF r.2 "username") username || pyEq (getF r.2 "email") email) then
    (s, .httpError 500 "Internal server error: Username or email already exists")
  else
    let uid := s.db.nextUserId
    let row : Obj :=
      [("username", username), ("email", email), ("full_name", full_name),
       ("is_active", is_active), ("id", vInt uid), ("created_at", vDate s.clock)]
    let db1 := { s.db with users := s.db.users ++ [(uid, row)],
                           nextUserId := uid + 1 }
    standaloneAudit s db1
      { entity := .orm "User" row, message := "User created",
        change_type := "CREATED", old_values := none, changed_fields := none,
        entity_type := none, entity_id := none }

/-- update_user (users.py lines 112-145): applies every payload field with
setattr (no hasattr guard and no diff), stamps updated_at, commits, then
commit_changes("User updated") with the CREATED default change_type. -/
def updateUserEndpoint (uid : Int) (payload : List (String × Value))
    (s : SysState) : SysState × ApiResponse :=
  match lookupRow s.db.users uid with
  | none => (s, .httpError 404 "User not found")
  | some row =>
    let row1 := payload.foldl (fun acc fv => setField acc fv.1 fv.2) row
    let row2 := setField row1 "updated_at" (vDate s.clock)
    let db1 := { s.db with users := replaceRow s.db.users uid row2 }
    standaloneAudit s db1
      { entity := .orm "User" row2, message := "User updated",
        change_type := "CREATED", old_values := none, changed_fields := none,
        entity_type := none, entity_id := none }

/-- delete_user (users.py lines 147-174): snapshots the row, deletes and
commits, then commit_changes on the plain dict with no explicit entity
type/id (so the audit row reports class dict and id unknown). -/
def deleteUserEndpoint (uid : Int) (s : SysState) : SysState × ApiResponse :=
  match lookupRow s.db.users uid with
  | none => (s, .httpError 404 "User not found")
  | some row =>
    let db1 := { s.db with users := removeRow s.db.users uid }
    standaloneAudit s db1
      { entity := .dict (userSnapshot row), message := "User deleted",
        change_type := "CREATED", old_values := none, changed_fields := none,
        entity_type := none, entity_id := none }

/-- create_product (products.py lines 54-76), as create_user but without the
duplicate check. -/
def createProductEndpoint (name description price category stock_quantity : Value)
    (s : SysState) : SysState × ApiResponse :=
  let pid := s.db.nextProductId
  let row : Obj :=
    [("name", name), ("description", description), ("price", price),
     ("category", category), ("stock_quantity", stock_quantity),
     ("id", vInt pid), ("created_at", vDate s.clock)]
  let db1 := { s.db with products := s.db.products ++ [(pid, row)],
                         nextProductId := pid + 1 }
  standaloneAudit s db1
    { entity := .orm "Product" row, message := "Product created",
      change_type := "CREATED", old_values := none, changed_fields := none,
      entity_type := none, entity_id := none }

/-- update_product (products.py lines 109-143), as update_user. -/
def updateProductEndpoint (pid : Int) (payload : List (String × Value))
    (s : SysState) : SysState × ApiResponse :=
  match lookupRow s.db.products pid with
  | none => (s, .httpError 404 "Product not found")
  | some row =>
    let row1 := payload.foldl (fun acc fv => setField acc fv.1 fv.2) row
    let row2 := setField row1 "updated_at" (vDate s.clock)
    let db1 := { s.db with products := replaceRow s.db.products pid row2 }
    standaloneAudit s db1
      { entity := .orm "Product" row2, message := "Product updated",
        change_type := "CREATED", old_values := none, changed_fields := none,
        entity_type := none, entity_id := none }

/-- delete_product (products.py lines 145-173), as delete_user. -/
def deleteProductEndpoint (pid : Int) (s : SysState) : SysState × ApiResponse :=
  match lookupRow s.db.products pid with
  | none => (s, .httpError 404 "Product not found")
  | some row =>
    let db1 := { s.db with products := removeRow s.db.products pid }
    standaloneAudit s db1
      { entity := .dict (productSnapshot row), message := "Product deleted",
        change_type := "CREATED", old_values := none, changed_fields := none,
        entity_type := none, entity_id := none }

/-- One change record as returned by
JaversService.get_changes_for_transaction (javers_service.py lines 76-90). -/
structure ChangeView where
  commit_id : String
  commit_date : Nat
  author : Option String
  change_type : String
  entity_type : String
  entity_id : String
  old_values : Option Obj
  new_values : Option Obj
  changed_fields : Option (List String)
  transaction_id : String
deriving DecidableEq, Repr

/-- The view built from one stored audit row. -/
def changeViewOf (l : AuditLog) : ChangeView :=
  { commit_id := l.commit_id, commit_date := l.commit_date, author := l.author,
    change_type := l.change_type, entity_type := l.entity_type,
    entity_id := l.entity_id, old_values := l.old_values,
    new_values := l.new_values, changed_fields := l.changed_fields,
    transaction_id := l.transaction_id }

/-- JaversService.get_changes_for_transaction: every stored row with the
given transaction id, in storage order, rendered in full. -/
def getChangesForTransaction (db : DB) (tid : String) : List ChangeView :=
  (db.auditLogs.filter (fun l => l.transaction_id = tid)).map changeViewOf

/-- One record of JaversService.get_entity_history: the post-state snapshot
with change metadata. -/
structure HistoryView where
  commit_id : String
  commit_date : Nat
  author : Option String
  state : Option Obj
  change_type : String
deriving DecidableEq, Repr

def historyViewOf (l : AuditLog) : HistoryView :=
  { commit_id := l.commit_id, commit_date := l.commit_date, author := l.author,
    state := l.new_values, change_type := l.change_type }

/-- Stable descending insertion by a Nat key: the model of ORDER BY key
DESC (stable, so storage order breaks ties). -/
def insertDesc {α : Type} (key : α → Nat) (a : α) : List α → List α
  | [] => [a]
  | b :: rest => if key b < key a then a :: b :: rest else b :: insertDesc key a rest

/-- Stable descending sort by a Nat key. -/
def sortByDesc {α : Type} (key : α → Nat) : List α → List α
  | [] => []
  | a :: rest => insertDesc key a (sortByDesc key rest)

/-- JaversService.get_entity_history: rows of one entity ordered by
commit_date descending. -/
def getEntityHistory (db : DB) (etype eid : String) : List HistoryView :=
  (sortByDesc (fun l => l.commit_date)
      (db.auditLogs.filter (fun l => l.entity_type = etype ∧ l.entity_id = eid))).map
    historyViewOf

/-- The recent audit feed (audit.py lines 85-112): rows whose receipt time
falls within the window, newest first, truncated to the limit. -/
def getRecentAuditLogs (db : DB) (nowT : Nat) (limit : Nat) (days : Nat) :
    List AuditLog :=
  (sortByDesc (fun l => l.created_at)
      (db.auditLogs.filter (fun l => nowT - days ≤ l.created_at))).take limit

/-- The audit summary (audit.py lines 114-156): total row count and distinct
transaction count over the window. -/
def getAuditSummary (db : DB) (nowT : Nat) (days : Nat) : Nat × Nat :=
  let window := db.auditLogs.filter (fun l => nowT - days ≤ l.created_at)
  (window.length, (window.map (fun l => l.transaction_id)).dedup.length)

/-- One externally triggered operation of the system: the transaction
endpoints (with the environment-chosen uuid and fault injections) and the
standalone CRUD endpoints. -/
inductive SysOp where
  | txnCreate (tid description : String) : SysOp
  | txnExecute (tid : String) (ops : List RawOp) (primaryOk : Bool)
      (appendOk : Nat → Bool) : SysOp
  | txnComplete (tid : String) : SysOp
  | txnDelete (tid : String) : SysOp
  | userCreate (username email full_name is_active : Value) : SysOp
  | userUpdate (uid : Int) (payload : List (String × Value)) : SysOp
  | userDelete (uid : Int) : SysOp
  | productCreate (name description price category stock_quantity : Value) : SysOp
  | productUpdate (pid : Int) (payload : List (String × Value)) : SysOp
  | productDelete (pid : Int) : SysOp

/-- Dispatch one request against the state. -/
def applyOp (s : SysState) : SysOp → SysState × ApiResponse
  | .txnCreate tid description => createTransaction tid description s
  | .txnExecute tid ops primaryOk appendOk =>
    executeTransactionOperations tid ops primaryOk appendOk s
  | .txnComplete tid => completeTransaction tid s
  | .txnDelete tid => deleteTransaction tid s
  | .userCreate u e f a => createUserEndpoint u e f a s
  | .userUpdate uid payload => updateUserEndpoint uid payload s
  | .userDelete uid => deleteUserEndpoint uid s
  | .productCreate n d p c q => createProductEndpoint n d p c q s
  | .productUpdate pid payload => updateProductEndpoint pid payload s
  | .productDelete pid => deleteProductEndpoint pid s

/-- One step: the request effect plus a clock tick between requests. -/
def stepState (s : SysState) (op : SysOp) : SysState :=
  let s1 := (applyOp s op).1
  { s1 with clock := s.clock + 1 }

/-- Run a request sequence. -/
def runSys (s : SysState) (ops : List SysOp) : SysState :=
  ops.foldl stepState s

/-- The freshly bootstrapped system: empty tables, no bound scope. -/
def initState : SysState :=
  { db := { users := [], products := [], transactions := [], auditLogs := [],
            nextUserId := 1, nextProductId := 1, nextTxnRowId := 1,
            nextAuditRowId := 1 },
    javers := { current_transaction_id := none, current_author := none },
    clock := 0 }

/-- A state the deployed system can be in: reached from bootstrap by some
request sequence. -/
def Reachable (s : SysState) : Prop :=
  ∃ ops : List SysOp, runSys initState ops = s

/-- The user handler only touches the users table and its id counter. -/
lemma execUserOperation_frame (rop : RawOp) (db : DB) (now : Nat) :
    ((execUserOperation rop db now).1).auditLogs = db.auditLogs ∧
    ((execUserOperation rop db now).1).transactions = db.transactions ∧
    ((execUserOperation rop db now).1).products = db.products ∧
    ((execUserOperation rop db now).1).nextAuditRowId = db.nextAuditRowId := by
  unfold execUserOperation
  repeat' split
  all_goals exact ⟨rfl, rfl, rfl, rfl⟩

/-- The product handler only touches the products table and its id
counter. -/
lemma execProductOperation_frame (rop : RawOp) (db : DB) (now : Nat) :
    ((execProductOperation rop db now).1).auditLogs = db.auditLogs ∧
    ((execProductOperation rop db now).1).transactions = db.transactions ∧
    ((execProductOperation rop db now).1).users = db.users ∧
    ((execProductOperation rop db now).1).nextAuditRowId = db.nextAuditRowId := by
  unfold execProductOperation
  repeat' split
  all_goals exact ⟨rfl, rfl, rfl, rfl⟩

/-- The operation loop leaves the transactions and audit_logs tables and the
audit row counter untouched: only entity tables are mutated before the
commit point. -/
lemma runOps_frame (ops : List RawOp) (db : DB) (now : Nat)
    (work : DB) (rs : List OpResult) (ds : List AuditDraft)
    (h : runOps db now ops = .ok (work, rs, ds)) :
    work.auditLogs = db.auditLogs ∧ work.transactions = db.transactions ∧
    work.nextAuditRowId = db.nextAuditRowId := by
  induction ops generalizing db work rs ds with
  | nil =>
    simp only [runOps, Except.ok.injEq, Prod.mk.injEq] at h
    obtain ⟨h1, -, -⟩ := h
    exact ⟨by rw [h1], by rw [h1], by rw [h1]⟩
  | cons rop rest ih =>
    by_cases ht : rop.type = some "user"
    · rw [runOps, if_pos ht] at h
      rcases hout : execUserOperation rop db now with ⟨db1, ho⟩
      cases ho with
      | pair res draft =>
        simp only [hout] at h
        cases hrest : runOps db1 now rest with
        | error e => rw [hrest] at h; simp [Except.map] at h
        | ok out =>
          obtain ⟨w2, rs2, ds2⟩ := out
          rw [hrest] at h
          simp only [Except.map, Except.ok.injEq, Prod.mk.injEq] at h
          obtain ⟨hw, -, -⟩ := h
          have hf := execUserOperation_frame rop db now
          rw [hout] at hf
          have hr := ih db1 w2 rs2 ds2 hrest
          exact ⟨by rw [← hw, hr.1, hf.1], by rw [← hw, hr.2.1, hf.2.1],
                 by rw [← hw, hr.2.2, hf.2.2.2]⟩
      | bare res => simp only [hout] at h; simp at h
    · by_cases ht2 : rop.type = some "product"
      · rw [runOps, if_neg ht, if_pos ht2] at h
        rcases hout : execProductOperation rop db now with ⟨db1, ho⟩
        cases ho with
        | pair res draft =>
          simp only [hout] at h
          cases hrest : runOps db1 now rest with
          | error e => rw [hrest] at h; simp [Except.map] at h
          | ok out =>
            obtain ⟨w2, rs2, ds2⟩ := out
            rw [hrest] at h
            simp only [Except.map, Except.ok.injEq, Prod.mk.injEq] at h
            obtain ⟨hw, -, -⟩ := h
            have hf := execProductOperation_frame rop db now
            rw [hout] at hf
            have hr := ih db1 w2 rs2 ds2 hrest
            exact ⟨by rw [← hw, hr.1, hf.1], by rw [← hw, hr.2.1, hf.2.1],
                   by rw [← hw, hr.2.2, hf.2.2.2]⟩
        | bare res => simp only [hout] at h; simp at h
      · rw [runOps, if_neg ht, if_neg ht2] at h
        cases hrest : runOps db now rest with
        | error e => rw [hrest] at h; simp [Except.map] at h
        | ok out =>
          obtain ⟨w2, rs2, ds2⟩ := out
          rw [hrest] at h
          simp only [Except.map, Except.ok.injEq, Prod.mk.injEq] at h
          obtain ⟨hw, -, -⟩ := h
          have hr := ih db w2 rs2 ds2 hrest
          exact ⟨by rw [← hw, hr.1], by rw [← hw, hr.2.1], by rw [← hw, hr.2.2]⟩

/-- A best-effort standalone audit append never removes audit rows and never
touches the transactions table. -/
lemma standaloneAudit_spec (s : SysState) (db1 : DB) (draft : AuditDraft) :
    (∃ extra, ((standaloneAudit s db1 draft).1).db.auditLogs = db1.auditLogs ++ extra) ∧
    ((standaloneAudit s db1 draft).1).db.transactions = db1.transactions := by
  unfold standaloneAudit
  cases commitChanges s.javers draft ("commit-" ++ toString db1.nextAuditRowId)
      s.clock db1.nextAuditRowId with
  | ok log => exact ⟨⟨[log], rfl⟩, rfl⟩
  | error e => exact ⟨⟨[], (List.append_nil _).symm⟩, rfl⟩

/-- Every request leaves the existing audit rows in place: the table grows
by a suffix (possibly empty), never shrinks, never rewrites a row. -/
lemma applyOp_append_only (s : SysState) (op : SysOp) :
    ∃ extra, ((applyOp s op).1).db.auditLogs = s.db.auditLogs ++ extra := by
  cases op with
  | txnCreate tid description =>
    cases hl : lookupTxn s.db.transactions tid with
    | none => exact ⟨[], by simp [applyOp, createTransaction, hl]⟩
    | some t => exact ⟨[], by simp [applyOp, createTransaction, hl]⟩
  | txnExecute tid ops primaryOk appendOk =>
    cases hl : lookupTxn s.db.transactions tid with
    | none => exact ⟨[], by simp [applyOp, executeTransactionOperations, hl]⟩
    | some t =>
      by_cases hs : t.status = "completed"
      · exact ⟨[], by simp [applyOp, executeTransactionOperations, hl, hs]⟩
      · cases hrun : runOps s.db s.clock ops with
        | error e =>
          exact ⟨[], by simp [applyOp, executeTransactionOperations, hl, hs, hrun]⟩
        | ok out =>
          obtain ⟨work, results, drafts⟩ := out
          by_cases hp : primaryOk
          · refine ⟨(auditPhase (startTransaction s.javers tid "system") appendOk
                s.clock drafts 0 work.nextAuditRowId work.nextAuditRowId).1, ?_⟩
            have hfr := runOps_frame ops s.db s.clock work results drafts hrun
            simp only [applyOp, executeTransactionOperations, hl, hs, if_false, hp,
              if_true, hrun]
            rw [hfr.1]
          · exact ⟨[], by
              simp [applyOp, executeTransactionOperations, hl, hs, hrun, hp]⟩
  | txnComplete tid =>
    cases hl : lookupTxn s.db.transactions tid with
    | none => exact ⟨[], by simp [applyOp, completeTransaction, hl]⟩
    | some t =>
      by_cases hs : t.status = "completed"
      · exact ⟨[], by simp [applyOp, completeTransaction, hl, hs]⟩
      · by_cases hc : auditCount s.db tid = 0
        · exact ⟨[], by simp [applyOp, completeTransaction, hl, hs, hc]⟩
        · exact ⟨[], by simp [applyOp, completeTransaction, hl, hs, hc]⟩
  | txnDelete tid =>
    cases hl : lookupTxn s.db.transactions tid with
    | none => exact ⟨[], by simp [applyOp, deleteTransaction, hl]⟩
    | some t => exact ⟨[], by simp [applyOp, deleteTransaction, hl]⟩
  | userCreate u e f a =>
    by_cases hd : s.db.users.any (fun r =>
        pyEq (getF r.2 "username") u || pyEq (getF r.2 "email") e)
    · exact ⟨[], by simp [applyOp, createUserEndpoint, hd]⟩
    · simp only [applyOp, createUserEndpoint, hd, if_false, Bool.false_eq_true]
      exact (standaloneAudit_spec _ _ _).1
  | userUpdate uid payload =>
    cases hl : lookupRow s.db.users uid with
    | none => exact ⟨[], by simp [applyOp, updateUserEndpoint, hl]⟩
    | some row =>
      simp only [applyOp, updateUserEndpoint, hl]
      exact (standaloneAudit_spec _ _ _).1
  | userDelete uid =>
    cases hl : lookupRow s.db.users uid with
    | none => exact ⟨[], by simp [applyOp, deleteUserEndpoint, hl]⟩
    | some row =>
      simp only [applyOp, deleteUserEndpoint, hl]
      exact (standaloneAudit_spec _ _ _).1
  | productCreate n d p c q =>
    simp only [applyOp, createProductEndpoint]
    exact (standaloneAudit_spec _ _ _).1
  | productUpdate pid payload =>
    cases hl : lookupRow s.db.products pid with
    | none => exact ⟨[], by simp [applyOp, updateProductEndpoint, hl]⟩
    | some row =>
      simp only [applyOp, updateProductEndpoint, hl]
      exact (standaloneAudit_spec _ _ _).1
  | productDelete pid =>
    cases hl : lookupRow s.db.products pid with
    | none => exact ⟨[], by simp [applyOp, deleteProductEndpoint, hl]⟩
    | some row =>
      simp only [applyOp, deleteProductEndpoint, hl]
      exact (standaloneAudit_spec _ _ _).1

/-- One step never loses an audit row. -/
lemma stepState_append_only (s : SysState) (op : SysOp) :
    ∃ extra, (stepState s op).db.auditLogs = s.db.auditLogs ++ extra :=
  applyOp_append_only s op

/-- A whole request sequence never loses an audit row. -/
lemma runSys_append_only (ops : List SysOp) (s : SysState) :
    ∃ extra, (runSys s ops).db.auditLogs = s.db.auditLogs ++ extra := by
  induction ops generalizing s with
  | nil => exact ⟨[], (List.append_nil _).symm⟩
  | cons op rest ih =>
    obtain ⟨e1, h1⟩ := stepState_append_only s op
    obtain ⟨e2, h2⟩ := ih (stepState s op)
    exact ⟨e1 ++ e2, by
      show (runSys (stepState s op) rest).db.auditLogs = _
      rw [h2, h1, List.append_assoc]⟩

/-- Audit counts never decrease when the log grows by a suffix. -/
lemma auditCount_le_of_append (db db' : DB) (tid : String)
    (h : ∃ extra, db'.auditLogs = db.auditLogs ++ extra) :
    auditCount db tid ≤ auditCount db' tid := by
  obtain ⟨extra, hx⟩ := h
  unfold auditCount
  rw [hx, List.filter_append, List.length_append]
  exact Nat.le_add_right _ _

/-- The system invariant behind complete_transaction: a sealed transaction
row always has at least one audit row referencing it. -/
def CompletedHasEntries (s : SysState) : Prop :=
  ∀ t ∈ s.db.transactions, t.status = "completed" →
    0 < auditCount s.db t.transaction_id

/-- Any completed row after one request either already existed or was just
sealed by complete_transaction, whose guard had checked its audit count. -/
lemma applyOp_completed_origin (s : SysState) (op : SysOp) :
    ∀ t' ∈ ((applyOp s op).1).db.transactions, t'.status = "completed" →
      t' ∈ s.db.transactions ∨ 0 < auditCount ((applyOp s op).1).db t'.transaction_id := by
  intro t' ht' hcomp
  cases op with
  | txnCreate tid description =>
    cases hl : lookupTxn s.db.transactions tid with
    | some t => simp only [applyOp, createTransaction, hl] at ht'; exact Or.inl ht'
    | none =>
      simp only [applyOp, createTransaction, hl] at ht'
      rcases List.mem_append.mp ht' with hL | hR
      · exact Or.inl hL
      · exfalso
        have : t'.status = "pending" := by
          rcases List.mem_singleton.mp hR with rfl; rfl
        rw [this] at hcomp; exact absurd hcomp (by decide)
  | txnExecute tid ops primaryOk appendOk =>
    cases hl : lookupTxn s.db.transactions tid with
    | none => simp only [applyOp, executeTransactionOperations, hl] at ht'; exact Or.inl ht'
    | some t =>
      by_cases hs : t.status = "completed"
      · simp only [applyOp, executeTransactionOperations, hl, hs, if_true] at ht'
        exact Or.inl ht'
      · cases hrun : runOps s.db s.clock ops with
        | error e =>
          simp only [applyOp, executeTransactionOperations, hl, hs, if_false, hrun] at ht'
          exact Or.inl ht'
        | ok out =>
          obtain ⟨work, results, drafts⟩ := out
          have hfr := runOps_frame ops s.db s.clock work results drafts hrun
          by_cases hp : primaryOk
          · simp only [applyOp, executeTransactionOperations, hl, hs, if_false, hrun,
              hp, if_true] at ht'
            rw [hfr.2.1] at ht'
            exact Or.inl ht'
          · simp only [applyOp, executeTransactionOperations, hl, hs, if_false, hrun,
              hp] at ht'
            exact Or.inl ht'
  | txnComplete tid =>
    cases hl : lookupTxn s.db.transactions tid with
    | none => simp only [applyOp, completeTransaction, hl] at ht'; exact Or.inl ht'
    | some t =>
      by_cases hs : t.status = "completed"
      · simp only [applyOp, completeTransaction, hl, hs, if_true] at ht'
        exact Or.inl ht'
      · by_cases hc : auditCount s.db tid = 0
        · simp only [applyOp, completeTransaction, hl, hs, if_false, hc, if_true] at ht'
          exact Or.inl ht'
        · simp only [applyOp, completeTransaction, hl, hs, if_false, hc] at ht'
          obtain ⟨u, hu, hfu⟩ := List.mem_map.mp ht'
          by_cases hut : u.transaction_id = tid
          · refine Or.inr ?_
            rw [if_pos hut] at hfu
            have htid : t'.transaction_id = tid := by rw [← hfu]; exact hut
            have hcount :
                auditCount ((applyOp s (SysOp.txnComplete tid)).1).db t'.transaction_id
                  = auditCount s.db tid := by
              simp only [applyOp, completeTransaction, hl, hs, if_false, hc, htid]
              rfl
            rw [hcount]
            exact Nat.pos_of_ne_zero hc
          · rw [if_neg hut] at hfu
            exact Or.inl (hfu ▸ hu)
  | txnDelete tid =>
    cases hl : lookupTxn s.db.transactions tid with
    | none => simp only [applyOp, deleteTransaction, hl] at ht'; exact Or.inl ht'
    | some t =>
      simp only [applyOp, deleteTransaction, hl] at ht'
      exact Or.inl (List.mem_of_mem_filter ht')
  | userCreate u e f a =>
    by_cases hd : s.db.users.any (fun r =>
        pyEq (getF r.2 "username") u || pyEq (getF r.2 "email") e)
    · simp only [applyOp, createUserEndpoint, hd, if_true] at ht'; exact Or.inl ht'
    · simp only [applyOp, createUserEndpoint, hd, if_false, Bool.false_eq_true] at ht'
      rw [(standaloneAudit_spec _ _ _).2] at ht'
      exact Or.inl ht'
  | userUpdate uid payload =>
    cases hl : lookupRow s.db.users uid with
    | none => simp only [applyOp, updateUserEndpoint, hl] at ht'; exact Or.inl ht'
    | some row =>
      simp only [applyOp, updateUserEndpoint, hl] at ht'
      rw [(standaloneAudit_spec _ _ _).2] at ht'
      exact Or.inl ht'
  | userDelete uid =>
    cases hl : lookupRow s.db.users uid with
    | none => simp only [applyOp, deleteUserEndpoint, hl] at ht'; exact Or.inl ht'
    | some row =>
      simp only [applyOp, deleteUserEndpoint, hl] at ht'
      rw [(standaloneAudit_spec _ _ _).2] at ht'
      exact Or.inl ht'
  | productCreate n d p c q =>
    simp only [applyOp, createProductEndpoint] at ht'
    rw [(standaloneAudit_spec _ _ _).2] at ht'
    exact Or.inl ht'
  | productUpdate pid payload =>
    cases hl : lookupRow s.db.products pid with
    | none => simp only [applyOp, updateProductEndpoint, hl] at ht'; exact Or.inl ht'
    | some row =>
      simp only [applyOp, updateProductEndpoint, hl] at ht'
      rw [(standaloneAudit_spec _ _ _).2] at ht'
      exact Or.inl ht'
  | productDelete pid =>
    cases hl : lookupRow s.db.products pid with
    | none => simp only [applyOp, deleteProductEndpoint, hl] at ht'; exact Or.inl ht'
    | some row =>
      simp only [applyOp, deleteProductEndpoint, hl] at ht'
      rw [(standaloneAudit_spec _ _ _).2] at ht'
      exact Or.inl ht'

/-- The invariant is preserved by every request. -/
lemma completedHasEntries_step (s : SysState) (op : SysOp)
    (hinv : CompletedHasEntries s) : CompletedHasEntries (stepState s op) := by
  intro t' ht' hcomp
  have hdb : (stepState s op).db = ((applyOp s op).1).db := rfl
  rw [hdb] at ht'
  show 0 < auditCount (stepState s op).db t'.transaction_id
  rw [hdb]
  rcases applyOp_completed_origin s op t' ht' hcomp with hold | hnew
  · exact lt_of_lt_of_le (hinv t' hold hcomp)
      (auditCount_le_of_append _ _ _ (applyOp_append_only s op))
  · exact hnew

/-- The invariant holds in every reachable state. -/
lemma reachable_completedHasEntries (s : SysState) (h : Reachable s) :
    CompletedHasEntries s := by
  obtain ⟨ops, hops⟩ := h
  rw [← hops]
  have hrun : ∀ (l : List SysOp) (st : SysState), CompletedHasEntries st →
      CompletedHasEntries (runSys st l) := by
    intro l
    induction l with
    | nil => intro st hst; exact hst
    | cons op rest ih =>
      intro st hst
      exact ih (stepState st op) (completedHasEntries_step st op hst)
  refine hrun ops initState ?_
  intro t ht
  exact absurd ht (List.not_mem_nil t)

lemma mem_insertDesc {α : Type} (key : α → Nat) (a x : α) (l : List α) :
    x ∈ insertDesc key a l ↔ x = a ∨ x ∈ l := by
  induction l with
  | nil => simp [insertDesc]
  | cons b rest ih =>
    by_cases hk : key b < key a
    · simp [insertDesc, hk]
    · simp only [insertDesc, if_neg hk, List.mem_cons, ih]
      tauto

/-- Sorting is a permutation as far as membership goes. -/
lemma mem_sortByDesc {α : Type} (key : α → Nat) (x : α) (l : List α) :
    x ∈ sortByDesc key l ↔ x ∈ l := by
  induction l with
  | nil => simp [sortByDesc]
  | cons a rest ih =>
    simp only [sortByDesc, mem_insertDesc, List.mem_cons, ih]

/-- With a bound scope, the defensive audit loop visits every draft: the
failing appends (and only those) are turned into commit errors in order, and
each succeeding append contributes exactly one stored row.  No failure stops
the loop. -/
lemma auditPhase_spec (j : JaversState) (tid : String) (aOk : Nat → Bool)
    (now : Nat) (hj : j.current_transaction_id = some tid) :
    ∀ (drafts : List AuditDraft) (i cid aid : Nat),
      (auditPhase j aOk now drafts i cid aid).2.1 =
        ((List.enumFrom i drafts).filter (fun p => !aOk p.1)).map
          (fun p => draftCommitError p.2 "audit append failed") ∧
      (auditPhase j aOk now drafts i cid aid).1.length =
        ((List.enumFrom i drafts).filter (fun p => aOk p.1)).length := by
  intro drafts
  induction drafts with
  | nil => intro i cid aid; simp [auditPhase, List.enumFrom]
  | cons draft rest ih =>
    intro i cid aid
    by_cases hi : aOk i
    · have hcommit : commitChanges j draft ("commit-" ++ toString cid) now aid =
          .ok { id := aid, transaction_id := tid,
                entity_type :=
                  if truthyStr draft.entity_type ∧ truthyStr draft.entity_id then
                    draft.entity_type.getD ""
                  else reprClassName draft.entity,
                entity_id :=
                  if truthyStr draft.entity_type ∧ truthyStr draft.entity_id then
                    draft.entity_id.getD ""
                  else reprIdStr draft.entity,
                change_type := draft.change_type,
                old_values := draft.old_values,
                new_values := some (extractEntityValues draft.entity),
                changed_fields := draft.changed_fields,
                author := j.current_author,
                commit_id := "commit-" ++ toString cid,
                commit_date := now, created_at := now } := by
        simp only [commitChanges, hj]
        by_cases ht : truthyStr draft.entity_type ∧ truthyStr draft.entity_id
        · simp [ht]
        · simp [ht]
      simp only [auditPhase, if_pos hi, hcommit]
      constructor
      · rw [(ih (i + 1) (cid + 1) (aid + 1)).1]
        simp [List.enumFrom, List.filter_cons, hi]
      · simp only [List.length_cons]
        rw [(ih (i + 1) (cid + 1) (aid + 1)).2]
        simp [List.enumFrom, List.filter_cons, hi]
    · have hib : aOk i = false := Bool.eq_false_iff.mpr hi
      simp only [auditPhase, hib, Bool.false_eq_true, if_false]
      constructor
      · rw [(ih (i + 1) (cid + 1) aid).1]
        simp [List.enumFrom, List.filter_cons, hib]
      · rw [(ih (i + 1) (cid + 1) aid).2]
        simp [List.enumFrom, List.filter_cons, hib]

lemma length_le_toDigitsCore (b : Nat) :
    ∀ (f n : Nat) (ds : List Char), ds.length ≤ (Nat.toDigitsCore b f n ds).length := by
  intro f
  induction f with
  | zero => intro n ds; simp [Nat.toDigitsCore]
  | succ f ih =>
    intro n ds
    simp only [Nat.toDigitsCore]
    by_cases h : n / b = 0
    · simp [h]
    · simp only [h, if_false]
      calc ds.length ≤ (Nat.digitChar (n % b) :: ds).length := by
            simp
        _ ≤ _ := ih (n / b) _

lemma nat_repr_ne_empty (n : Nat) : Nat.repr n ≠ "" := by
  intro h
  have hlen : 1 ≤ (Nat.toDigits 10 n).length := by
    show 1 ≤ (Nat.toDigitsCore 10 (n + 1) n []).length
    simp only [Nat.toDigitsCore]
    by_cases hd : n / 10 = 0
    · simp [hd]
    · simp only [hd, if_false]
      have := length_le_toDigitsCore 10 n (n / 10) [Nat.digitChar (n % 10)]
      simpa using this
  have h2 : Nat.toDigits 10 n = [] := congrArg String.data h
  rw [h2] at hlen
  simp at hlen

/-- str() of an integer is never the empty string, so the Python truthiness
check on an explicit entity_id built from an id always passes. -/
lemma toString_int_isEmpty_false (i : Int) : (toString i).isEmpty = false := by
  have h : toString i ≠ "" := by
    cases i with
    | ofNat m => exact nat_repr_ne_empty m
    | negSucc m =>
      intro h
      have hdata := congrArg String.data h
      rw [show toString (Int.negSucc m) = "-" ++ Nat.repr (m + 1) from rfl,
        String.data_append "-" (Nat.repr (m + 1))] at hdata
      simp at hdata
  cases he : (toString i).isEmpty
  · rfl
  · exact absurd ((String.isEmpty_iff _).mp he) h

lemma normalizeValue_eq_self (v : Value) (h : v.isDate = false) :
    normalizeValue v = v := by
  cases v with
  | vDate t => exact absurd h (by simp [Value.isDate])
  | vNone => rfl
  | vStr s => rfl
  | vInt n => rfl
  | vBool b => rfl

lemma map_normalize_eq_self (m : Obj) (h : ∀ kv ∈ m, kv.2.isDate = false) :
    List.map (fun kv : String × Value => (kv.1, normalizeValue kv.2)) m = m := by
  induction m with
  | nil => rfl
  | cons kv rest ih =>
    simp only [List.map_cons]
    rw [normalizeValue_eq_self kv.2 (h kv (List.mem_cons_self _ _))]
    rw [ih (fun x hx => h x (List.mem_cons_of_mem _ hx))]

/-- Snapshot extraction is the identity on a dict without datetime values:
only datetimes are rewritten by the extractor. -/
lemma extractEntityValues_dict_no_dates (m : Obj)
    (h : ∀ kv ∈ m, kv.2.isDate = false) :
    extractEntityValues (.dict m) = m := by
  show List.map (fun kv : String × Value => (kv.1, normalizeValue kv.2)) m = m
  exact map_normalize_eq_self m h

/-- A successful lookup returns a member row whose transaction_id matches. -/
lemma lookupTxn_mem (tbl : List Txn) (tid : String) (t : Txn)
    (h : lookupTxn tbl tid = some t) : t ∈ tbl ∧ t.transaction_id = tid := by
  induction tbl with
  | nil => simp [lookupTxn] at h
  | cons u rest ih =>
    by_cases hu : u.transaction_id = tid
    · simp only [lookupTxn, if_pos hu, Option.some.injEq] at h
      exact ⟨by rw [← h]; exact List.mem_cons_self _ _, by rw [← h]; exact hu⟩
    · simp only [lookupTxn, if_neg hu] at h
      obtain ⟨h1, h2⟩ := ih h
      exact ⟨List.mem_cons_of_mem _ h1, h2⟩

/-- A small populated store used to instantiate theorems on concrete
inputs. -/
def sampleUserRow : Obj :=
  [("username", vStr "alice"), ("email", vStr "alice@example.com"),
   ("full_name", vStr "Alice A"), ("is_active", vBool true),
   ("id", vInt 1), ("created_at", vDate 0)]

def sampleProductRow : Obj :=
  [("name", vStr "widget"), ("description", vStr "a widget"),
   ("price", vInt 999), ("category", vStr "tools"),
   ("stock_quantity", vInt 5), ("id", vInt 1), ("created_at", vDate 0)]

def sampleDB : DB :=
  { users := [(1, sampleUserRow)], products := [(1, sampleProductRow)],
    transactions := [], auditLogs := [], nextUserId := 2, nextProductId := 2,
    nextTxnRowId := 1, nextAuditRowId := 1 }

/-- Claim C1: for every UPDATED audit entry produced by the batch executor
(user and product update handlers alike), the changedFields list of the
entry is exactly the diff computed by the update loop over the stored row,
and a field is in that list iff it occurs in the update payload, is an
attribute of the entity, and its pre-update value differs from the newly
assigned payload value.  (A payload key that is not an attribute has no
newly assigned value: the hasattr guard skips it, see claim C10.) -/
theorem updated_changedFields_iff (db : DB) (now : Nat) (uid pid : Int)
    (d : List (String × Value)) (urow prow : Obj)
    (hu : lookupRow db.users uid = some urow)
    (hp : lookupRow db.products pid = some prow)
    (hnd : (d.map Prod.fst).Nodup) :
    (∃ db2 res draft,
        execUserOperation
            { type := some "user", operation := some "update",
              user_id := some uid, product_id := none, data := some d } db now
          = (db2, .pair res draft) ∧
        draft.change_type = "UPDATED" ∧
        draft.changed_fields = some (applyUpdates urow d).2) ∧
    (∃ db2 res draft,
        execProductOperation
            { type := some "product", operation := some "update",
              user_id := none, product_id := some pid, data := some d } db now
          = (db2, .pair res draft) ∧
        draft.change_type = "UPDATED" ∧
        draft.changed_fields = some (applyUpdates prow d).2) ∧
    (∀ g, g ∈ (applyUpdates urow d).2 ↔
        ∃ v, (g, v) ∈ d ∧ ∃ w, lookupField urow g = some w ∧ pyEq w v = false) ∧
    (∀ g, g ∈ (applyUpdates prow d).2 ↔
        ∃ v, (g, v) ∈ d ∧ ∃ w, lookupField prow g = some w ∧ pyEq w v = false) := by
  refine ⟨?_, ?_, fun g => mem_applyUpdates_changed urow d hnd g,
    fun g => mem_applyUpdates_changed prow d hnd g⟩
  · refine ⟨{ db with users := (replaceRow db.users uid (setField (applyUpdates urow d).1 "updated_at" (vDate now))) },
      { rtype := some "user", op := some "update", success := some true,
        error := none, target_id := some uid,
        old_values := some (userOldValues urow),
        new_values := some (userNewValues
          (setField (applyUpdates urow d).1 "updated_at" (vDate now))),
        data := none },
      { entity := .orm "User" (setField (applyUpdates urow d).1 "updated_at" (vDate now)),
        message := "User updated", change_type := "UPDATED",
        old_values := some (userOldValues urow),
        changed_fields := some (applyUpdates urow d).2,
        entity_type := none, entity_id := none }, ?_, rfl, rfl⟩
    simp only [execUserOperation, hu]
    rfl
  · refine ⟨{ db with products := (replaceRow db.products pid (setField (applyUpdates prow d).1 "updated_at" (vDate now))) },
      { rtype := some "product", op := some "update", success := some true,
        error := none, target_id := some pid,
        old_values := some (productOldValues prow),
        new_values := some (productNewValues
          (setField (applyUpdates prow d).1 "updated_at" (vDate now))),
        data := none },
      { entity := .orm "Product" (setField (applyUpdates prow d).1 "updated_at" (vDate now)),
        message := "Product updated", change_type := "UPDATED",
        old_values := some (productOldValues prow),
        changed_fields := some (applyUpdates prow d).2,
        entity_type := none, entity_id := none }, ?_, rfl, rfl⟩
    simp only [execProductOperation, hp]
    rfl

theorem updated_changedFields_iff_witness :
    lookupRow sampleDB.users 1 = some sampleUserRow ∧
    lookupRow sampleDB.products 1 = some sampleProductRow ∧
    (([("email", vStr "new@example.com"), ("is_active", vBool true)].map
        (Prod.fst (α := String) (β := Value))).Nodup) ∧
    "email" ∈ (applyUpdates sampleUserRow
      [("email", vStr "new@example.com"), ("is_active", vBool true)]).2 ∧
    "is_active" ∉ (applyUpdates sampleUserRow
      [("email", vStr "new@example.com"), ("is_active", vBool true)]).2 := by
  refine ⟨by decide, by decide, by decide, ?_, ?_⟩
  · exact ((updated_changedFields_iff sampleDB 7 1 1
        [("email", vStr "new@example.com"), ("is_active", vBool true)]
        sampleUserRow sampleProductRow (by decide) (by decide)
        (by decide)).2.2.1 "email").mpr
      ⟨vStr "new@example.com", by decide, vStr "alice@example.com", by decide,
        by decide⟩
  · intro hmem
    obtain ⟨v, hv, w, hw, hne⟩ := ((updated_changedFields_iff sampleDB 7 1 1
        [("email", vStr "new@example.com"), ("is_active", vBool true)]
        sampleUserRow sampleProductRow (by decide) (by decide)
        (by decide)).2.2.1 "is_active").mp hmem
    have hv2 : v = vBool true := by
      rcases List.mem_cons.mp hv with h1 | h1
      · have h3 : ("is_active" : String) = "email" := congrArg Prod.fst h1
        exact absurd h3 (by decide)
      · have h2 := List.mem_singleton.mp h1
        have h3 : v = vBool true := congrArg Prod.snd h2
        exact h3
    have hw2 : w = vBool true := by
      have : lookupField sampleUserRow "is_active" = some (vBool true) := by decide
      rw [this] at hw; injection hw with hw; exact hw.symm
    rw [hv2, hw2] at hne
    exact absurd hne (by decide)

/-- Claim C2: whenever the primary-store commit would fail, the execute
endpoint fails with an HTTP error and the store is left exactly as before
the call: every attempted entity mutation is rolled back and no audit row is
written for any operation of the batch. -/
theorem primary_commit_failure_rolls_back (tid : String) (ops : List RawOp)
    (appendOk : Nat → Bool) (s : SysState) :
    ∃ code detail,
      (executeTransactionOperations tid ops false appendOk s).2
        = .httpError code detail ∧
      ((executeTransactionOperations tid ops false appendOk s).1).db = s.db := by
  cases hl : lookupTxn s.db.transactions tid with
  | none =>
    exact ⟨404, "Transaction not found",
      by simp [executeTransactionOperations, hl]⟩
  | some t =>
    by_cases hs : t.status = "completed"
    · exact ⟨400, "Transaction already completed",
        by simp [executeTransactionOperations, hl, hs]⟩
    · cases hrun : runOps s.db s.clock ops with
      | error e =>
        exact ⟨500, "Transaction failed: " ++ e,
          by simp [executeTransactionOperations, hl, hs, hrun]⟩
      | ok out =>
        obtain ⟨work, results, drafts⟩ := out
        exact ⟨500, "Transaction failed: primary commit failed",
          by simp [executeTransactionOperations, hl, hs, hrun]⟩

/-- Sample data for the executor theorems: a pending transaction and a
two-create batch where the second audit append fails. -/
def sampleTxnRow : Txn :=
  { id := 1, transaction_id := "t1", description := "demo", user_id := none,
    status := "pending", created_at := 0, completed_at := none }

def sampleExecState : SysState :=
  { db := { sampleDB with transactions := [sampleTxnRow] },
    javers := { current_transaction_id := none, current_author := none },
    clock := 3 }

def sampleCreateOp : RawOp :=
  { type := some "user", operation := some "create", user_id := none,
    product_id := none,
    data := some [("username", vStr "bob"), ("email", vStr "bob@example.com")] }

/-- Fault injection where only the first audit append succeeds. -/
def sampleAppendOk : Nat → Bool := fun i => i = 0

def sampleRunOut : DB × List OpResult × List AuditDraft :=
  match runOps sampleExecState.db sampleExecState.clock
      [sampleCreateOp, sampleCreateOp] with
  | .ok out => out
  | .error _ => (sampleExecState.db, [], [])

/-- Claim C3: once the primary commit succeeds the response is the success
body; the committed entity tables stand regardless of audit failures, every
failing audit append (and only those) is reported as a commit error in
order, and every succeeding append stores a row — a failure does not abort
the remaining appends. -/
theorem audit_append_failures_isolated (tid : String) (ops : List RawOp)
    (appendOk : Nat → Bool) (s : SysState) (t : Txn) (work : DB)
    (results : List OpResult) (drafts : List AuditDraft)
    (hl : lookupTxn s.db.transactions tid = some t)
    (hs : ¬ t.status = "completed")
    (hrun : runOps s.db s.clock ops = .ok (work, results, drafts)) :
    ∃ logs aid,
      executeTransactionOperations tid ops true appendOk s
        = ({ s with
              db := { work with auditLogs := work.auditLogs ++ logs, nextAuditRowId := aid },
              javers := startTransaction s.javers tid "system" },
           .ok results
             (((List.enumFrom 0 drafts).filter (fun p => !appendOk p.1)).map
               (fun p => draftCommitError p.2 "audit append failed"))) ∧
      logs.length =
        ((List.enumFrom 0 drafts).filter (fun p => appendOk p.1)).length := by
  refine ⟨(auditPhase (startTransaction s.javers tid "system") appendOk s.clock
      drafts 0 work.nextAuditRowId work.nextAuditRowId).1,
    (auditPhase (startTransaction s.javers tid "system") appendOk s.clock
      drafts 0 work.nextAuditRowId work.nextAuditRowId).2.2.2, ?_, ?_⟩
  · simp only [executeTransactionOperations, hl, hs, if_false, hrun, if_true]
    rw [(auditPhase_spec (startTransaction s.javers tid "system") tid appendOk
      s.clock rfl drafts 0 work.nextAuditRowId work.nextAuditRowId).1]
  · exact (auditPhase_spec (startTransaction s.javers tid "system") tid appendOk
      s.clock rfl drafts 0 work.nextAuditRowId work.nextAuditRowId).2

/-- Whether a response is the success body, and its commit-error list. -/
def respIsOk : ApiResponse → Bool
  | .ok _ _ => true
  | .httpError _ _ => false

def respErrors : ApiResponse → List CommitError
  | .ok _ errs => errs
  | .httpError _ _ => []

theorem audit_append_failures_isolated_witness :
    lookupTxn sampleExecState.db.transactions "t1" = some sampleTxnRow ∧
    ¬ sampleTxnRow.status = "completed" ∧
    runOps sampleExecState.db sampleExecState.clock [sampleCreateOp, sampleCreateOp]
      = .ok sampleRunOut ∧
    respIsOk ((executeTransactionOperations "t1" [sampleCreateOp, sampleCreateOp]
      true sampleAppendOk sampleExecState).2) = true ∧
    (respErrors ((executeTransactionOperations "t1" [sampleCreateOp, sampleCreateOp]
      true sampleAppendOk sampleExecState).2)).length = 1 ∧
    ((executeTransactionOperations "t1" [sampleCreateOp, sampleCreateOp]
      true sampleAppendOk sampleExecState).1).db.users = sampleRunOut.1.users ∧
    (((executeTransactionOperations "t1" [sampleCreateOp, sampleCreateOp]
      true sampleAppendOk sampleExecState).1).db.auditLogs).length = 1 := by
  obtain ⟨logs, aid, h1, h2⟩ := audit_append_failures_isolated "t1"
    [sampleCreateOp, sampleCreateOp] sampleAppendOk sampleExecState sampleTxnRow
    sampleRunOut.1 sampleRunOut.2.1 sampleRunOut.2.2 (by decide) (by decide) rfl
  refine ⟨by decide, by decide, rfl, ?_, ?_, ?_, ?_⟩
  · rw [h1]
    rfl
  · rw [h1]
    show (respErrors (ApiResponse.ok sampleRunOut.2.1
      (List.map (fun p => draftCommitError p.2 "audit append failed")
        (List.filter (fun p => !sampleAppendOk p.1)
          (List.enumFrom 0 sampleRunOut.2.2))))).length = 1
    decide
  · rw [h1]
  · rw [h1]
    show (sampleRunOut.1.auditLogs ++ logs).length = 1
    rw [List.length_append, h2]
    decide

/-- Claim C4: in any reachable state, completing an existing transaction
with zero associated audit rows fails with the incomplete-transaction error
(its status cannot be completed, by the system invariant), completing an
already completed transaction fails with the already-completed error, and in
both failure cases the state — in particular the row status and
completed_at — is unchanged. -/
theorem complete_transaction_guards (s : SysState) (tid : String) (t : Txn)
    (hre : Reachable s) (hl : lookupTxn s.db.transactions tid = some t) :
    (auditCount s.db tid = 0 →
      completeTransaction tid s = (s, .httpError 400
        "Transaction cannot be completed without any operations. Please add at least one operation before completing.")) ∧
    (t.status = "completed" →
      completeTransaction tid s = (s, .httpError 400 "Transaction already completed")) := by
  have hinv := reachable_completedHasEntries s hre
  obtain ⟨hmem, htid⟩ := lookupTxn_mem _ _ _ hl
  constructor
  · intro hc0
    have hst : ¬ t.status = "completed" := by
      intro hcomp
      have hpos := hinv t hmem hcomp
      rw [htid, hc0] at hpos
      exact absurd hpos (lt_irrefl 0)
    simp [completeTransaction, hl, hst, hc0]
  · intro hcomp
    simp [completeTransaction, hl, hcomp]

def c4Ops : List SysOp :=
  [.txnCreate "t1" "d1", .txnCreate "t2" "d2",
   .txnExecute "t2" [sampleCreateOp] true (fun _ => true), .txnComplete "t2"]

def c4State : SysState := runSys initState c4Ops

def c4PendingTxn : Txn :=
  { id := 1, transaction_id := "t1", description := "d1", user_id := none,
    status := "pending", created_at := 0, completed_at := none }

def c4CompletedTxn : Txn :=
  { id := 2, transaction_id := "t2", description := "d2", user_id := none,
    status := "completed", created_at := 1, completed_at := some 3 }

theorem complete_transaction_guards_witness :
    Reachable c4State ∧
    lookupTxn c4State.db.transactions "t1" = some c4PendingTxn ∧
    auditCount c4State.db "t1" = 0 ∧
    lookupTxn c4State.db.transactions "t2" = some c4CompletedTxn ∧
    c4CompletedTxn.status = "completed" ∧
    completeTransaction "t1" c4State = (c4State, .httpError 400
      "Transaction cannot be completed without any operations. Please add at least one operation before completing.") ∧
    completeTransaction "t2" c4State = (c4State, .httpError 400 "Transaction already completed") := by
  refine ⟨⟨c4Ops, rfl⟩, by decide, by decide, by decide, by decide, ?_, ?_⟩
  · exact (complete_transaction_guards c4State "t1" c4PendingTxn ⟨c4Ops, rfl⟩
      (by decide)).1 (by decide)
  · exact (complete_transaction_guards c4State "t2" c4CompletedTxn ⟨c4Ops, rfl⟩
      (by decide)).2 (by decide)

/-- Claim C5 counterexample: contrary to the claim, starting a transaction
scope while another transaction is current does NOT fail with any error —
JaversService.start_transaction has no failure path at all.  On a scope
already bound to t1 it succeeds and silently overwrites the binding with the
new transaction and author. -/
theorem start_transaction_no_invalid_state_cex :
    startTransaction
        { current_transaction_id := some "t1", current_author := some "system" }
        "t2" "bob"
      = { current_transaction_id := some "t2", current_author := some "bob" } := rfl

/-- Claim C5 amended: start never fails; whether or not a transaction is
already current in the context, start unconditionally binds the given
transactionId and author as the active scope, overwriting any previous
binding. -/
theorem start_transaction_rebinds (j : JaversState) (t0 : String)
    (h : j.current_transaction_id = some t0) (tid author : String) :
    startTransaction j tid author
      = { current_transaction_id := some tid, current_author := some author } := by
  let _ := h
  rfl

theorem start_transaction_rebinds_witness :
    ({ current_transaction_id := some "t1", current_author := some "system" }
        : JaversState).current_transaction_id = some "t1" ∧
    startTransaction
        { current_transaction_id := some "t1", current_author := some "system" }
        "t2" "bob"
      = { current_transaction_id := some "t2", current_author := some "bob" } :=
  ⟨rfl, start_transaction_rebinds
    { current_transaction_id := some "t1", current_author := some "system" }
    "t1" rfl "t2" "bob"⟩

/-- Claim C6: the user delete handler snapshots the row before removing it
from the table (the snapshot is a function of the pre-delete row, the
resulting table has the row removed), supplies entityType/entityId
explicitly in the draft, and the audit row written for it has oldValues
absent, newValues equal to the extracted pre-delete snapshot (the snapshot
itself whenever it holds no datetime values), and the explicitly supplied
entity type and id — not the dict class name or unknown id that would be
read off the deleted entity representation. -/
theorem deleted_entry_snapshot (db : DB) (now : Nat) (uid : Int) (row : Obj)
    (j : JaversState) (tid cid : String) (cnow aid : Nat)
    (hrow : lookupRow db.users uid = some row)
    (hj : j.current_transaction_id = some tid) :
    execUserOperation
        { type := some "user", operation := some "delete", user_id := some uid,
          product_id := none, data := none } db now
      = ({ db with users := removeRow db.users uid },
         .pair
           { rtype := some "user", op := some "delete", success := some true,
             error := none, target_id := some uid, old_values := none,
             new_values := none, data := some (userSnapshot row) }
           { entity := .dict (userSnapshot row), message := "User deleted",
             change_type := "DELETED", old_values := none,
             changed_fields := none, entity_type := some "User",
             entity_id := some (toString uid) }) ∧
    commitChanges j
        { entity := .dict (userSnapshot row), message := "User deleted",
          change_type := "DELETED", old_values := none, changed_fields := none,
          entity_type := some "User", entity_id := some (toString uid) }
        cid cnow aid
      = .ok { id := aid, transaction_id := tid, entity_type := "User",
              entity_id := toString uid, change_type := "DELETED",
              old_values := none,
              new_values := some (extractEntityValues (.dict (userSnapshot row))),
              changed_fields := none, author := j.current_author,
              commit_id := cid, commit_date := cnow, created_at := cnow } ∧
    ((∀ kv ∈ userSnapshot row, kv.2.isDate = false) →
      extractEntityValues (.dict (userSnapshot row)) = userSnapshot row) := by
  refine ⟨?_, ?_, fun h => extractEntityValues_dict_no_dates _ h⟩
  · simp only [execUserOperation, hrow]
    rfl
  · have hue : ("User" : String).isEmpty = false := by decide
    simp [commitChanges, hj, truthyStr, toString_int_isEmpty_false, hue]

theorem deleted_entry_snapshot_witness :
    lookupRow sampleDB.users 1 = some sampleUserRow ∧
    ({ current_transaction_id := some "t1", current_author := some "system" }
        : JaversState).current_transaction_id = some "t1" ∧
    commitChanges
        { current_transaction_id := some "t1", current_author := some "system" }
        { entity := .dict (userSnapshot sampleUserRow), message := "User deleted",
          change_type := "DELETED", old_values := none, changed_fields := none,
          entity_type := some "User", entity_id := some (toString (1 : Int)) }
        "c1" 5 1
      = .ok { id := 1, transaction_id := "t1", entity_type := "User",
              entity_id := toString (1 : Int), change_type := "DELETED",
              old_values := none,
              new_values := some (extractEntityValues
                (.dict (userSnapshot sampleUserRow))),
              changed_fields := none, author := some "system",
              commit_id := "c1", commit_date := 5, created_at := 5 } ∧
    extractEntityValues (.dict (userSnapshot sampleUserRow))
      = userSnapshot sampleUserRow := by
  have h := deleted_entry_snapshot sampleDB 9 1 sampleUserRow
    { current_transaction_id := some "t1", current_author := some "system" }
    "t1" "c1" 5 1 (by decide) rfl
  exact ⟨by decide, rfl, h.2.1, h.2.2 (by decide)⟩

def sampleDeleteOp : RawOp :=
  { type := some "user", operation := some "delete", user_id := some 1,
    product_id := none, data := none }

/-- Claim C7 counterexample: a batch containing one user delete writes an
audit row with change kind DELETED whose oldValues is absent, refuting the
claim that oldValues is present for DELETED entries. -/
theorem deleted_oldValues_absent_cex :
    ((executeTransactionOperations "t1" [sampleDeleteOp] true (fun _ => true)
        sampleExecState).1).db.auditLogs.map (fun l => (l.change_type, l.old_values))
      = [("DELETED", none)] := by decide

/-- Claim C7 amended: for every audit draft emitted by the batch executor
handlers, the oldValues field map is present iff the change kind is UPDATED;
it is absent for CREATED and for DELETED. -/
theorem oldValues_iff_updated (rop : RawOp) (db : DB) (now : Nat)
    (db2 : DB) (res : OpResult) (draft : AuditDraft)
    (h : execUserOperation rop db now = (db2, .pair res draft)
         ∨ execProductOperation rop db now = (db2, .pair res draft)) :
    (draft.old_values.isSome = true ↔ draft.change_type = "UPDATED") := by
  rcases h with h | h
  · simp only [execUserOperation] at h
    split_ifs at h with h1 h2 h3
    · injection h with h4 h5
      injection h5 with hres hdraft
      subst hdraft
      simp
    · cases hu : rop.user_id with
      | none => simp only [hu] at h; simp at h
      | some uid =>
        simp only [hu] at h
        cases hr : lookupRow db.users uid with
        | none => simp only [hr] at h; simp at h
        | some row =>
          simp only [hr] at h
          injection h with h4 h5
          injection h5 with hres hdraft
          subst hdraft
          simp
    · cases hu : rop.user_id with
      | none => simp only [hu] at h; simp at h
      | some uid =>
        simp only [hu] at h
        cases hr : lookupRow db.users uid with
        | none => simp only [hr] at h; simp at h
        | some row =>
          simp only [hr] at h
          injection h with h4 h5
          injection h5 with hres hdraft
          subst hdraft
          simp
    · simp at h
  · simp only [execProductOperation] at h
    split_ifs at h with h1 h2 h3
    · injection h with h4 h5
      injection h5 with hres hdraft
      subst hdraft
      simp
    · cases hu : rop.product_id with
      | none => simp only [hu] at h; simp at h
      | some pid =>
        simp only [hu] at h
        cases hr : lookupRow db.products pid with
        | none => simp only [hr] at h; simp at h
        | some row =>
          simp only [hr] at h
          injection h with h4 h5
          injection h5 with hres hdraft
          subst hdraft
          simp
    · cases hu : rop.product_id with
      | none => simp only [hu] at h; simp at h
      | some pid =>
        simp only [hu] at h
        cases hr : lookupRow db.products pid with
        | none => simp only [hr] at h; simp at h
        | some row =>
          simp only [hr] at h
          injection h with h4 h5
          injection h5 with hres hdraft
          subst hdraft
          simp
    · simp at h

theorem oldValues_iff_updated_witness :
    execUserOperation sampleDeleteOp sampleDB 0
      = ({ sampleDB with users := removeRow sampleDB.users 1 },
         .pair
           { rtype := some "user", op := some "delete", success := some true,
             error := none, target_id := some 1, old_values := none,
             new_values := none, data := some (userSnapshot sampleUserRow) }
           { entity := .dict (userSnapshot sampleUserRow),
             message := "User deleted", change_type := "DELETED",
             old_values := none, changed_fields := none,
             entity_type := some "User",
             entity_id := some (toString (1 : Int)) }) ∧
    (({ entity := .dict (userSnapshot sampleUserRow),
        message := "User deleted", change_type := "DELETED",
        old_values := none, changed_fields := none,
        entity_type := some "User",
        entity_id := some (toString (1 : Int)) } : AuditDraft).old_values.isSome = true
      ↔ ({ entity := .dict (userSnapshot sampleUserRow),
           message := "User deleted", change_type := "DELETED",
           old_values := none, changed_fields := none,
           entity_type := some "User",
           entity_id := some (toString (1 : Int)) } : AuditDraft).change_type
          = "UPDATED") := by
  constructor
  · decide
  · exact oldValues_iff_updated sampleDeleteOp sampleDB 0
      { sampleDB with users := removeRow sampleDB.users 1 }
      { rtype := some "user", op := some "delete", success := some true,
        error := none, target_id := some 1, old_values := none,
        new_values := none, data := some (userSnapshot sampleUserRow) }
      _ (Or.inl (by decide))

/-- Claim C8: an update whose computed diff is empty (no payload field
differs from the stored value) still flows through the whole pipeline: the
handler emits an UPDATED draft, the executor appends it after the primary
commit, and exactly one audit row is recorded with changedFields equal to
the empty list — there is no short-circuit on an empty diff. -/
theorem empty_diff_still_recorded (s : SysState) (tid : String) (t : Txn)
    (uid : Int) (row : Obj) (d : List (String × Value))
    (hl : lookupTxn s.db.transactions tid = some t)
    (hs : ¬ t.status = "completed")
    (hrow : lookupRow s.db.users uid = some row)
    (hdiff : (applyUpdates row d).2 = []) :
    ∃ s2 results log,
      executeTransactionOperations tid
          [{ type := some "user", operation := some "update",
             user_id := some uid, product_id := none, data := some d }]
          true (fun _ => true) s
        = (s2, .ok results []) ∧
      s2.db.auditLogs = s.db.auditLogs ++ [log] ∧
      log.change_type = "UPDATED" ∧
      log.changed_fields = some [] ∧
      log.transaction_id = tid := by
  have hexec : execUserOperation
      { type := some "user", operation := some "update",
        user_id := some uid, product_id := none, data := some d } s.db s.clock
      = ({ s.db with users := (replaceRow s.db.users uid (setField (applyUpdates row d).1 "updated_at" (vDate s.clock))) },
         .pair
           { rtype := some "user", op := some "update", success := some true,
             error := none, target_id := some uid,
             old_values := some (userOldValues row),
             new_values := some (userNewValues (setField (applyUpdates row d).1 "updated_at" (vDate s.clock))),
             data := none }
           { entity := .orm "User" (setField (applyUpdates row d).1 "updated_at" (vDate s.clock)),
             message := "User updated", change_type := "UPDATED",
             old_values := some (userOldValues row),
             changed_fields := some (applyUpdates row d).2,
             entity_type := none, entity_id := none }) := by
    simp only [execUserOperation, hrow]
    rfl
  have hrun : runOps s.db s.clock
      [{ type := some "user", operation := some "update",
         user_id := some uid, product_id := none, data := some d }]
      = .ok ({ s.db with users := (replaceRow s.db.users uid (setField (applyUpdates row d).1 "updated_at" (vDate s.clock))) },
        [{ rtype := some "user", op := some "update", success := some true,
           error := none, target_id := some uid,
           old_values := some (userOldValues row),
           new_values := some (userNewValues (setField (applyUpdates row d).1 "updated_at" (vDate s.clock))),
           data := none }],
        [{ entity := .orm "User" (setField (applyUpdates row d).1 "updated_at" (vDate s.clock)),
           message := "User updated", change_type := "UPDATED",
           old_values := some (userOldValues row),
           changed_fields := some (applyUpdates row d).2,
           entity_type := none, entity_id := none }]) := by
    simp only [runOps, hexec]
    rfl
  have hcommit : commitChanges (startTransaction s.javers tid "system")
      { entity := .orm "User" (setField (applyUpdates row d).1 "updated_at" (vDate s.clock)),
        message := "User updated", change_type := "UPDATED",
        old_values := some (userOldValues row),
        changed_fields := some (applyUpdates row d).2,
        entity_type := none, entity_id := none }
      ("commit-" ++ toString s.db.nextAuditRowId) s.clock s.db.nextAuditRowId
      = .ok { id := s.db.nextAuditRowId, transaction_id := tid,
              entity_type := "User",
              entity_id := reprIdStr (.orm "User" (setField (applyUpdates row d).1 "updated_at" (vDate s.clock))),
              change_type := "UPDATED",
              old_values := some (userOldValues row),
              new_values := some (extractEntityValues (.orm "User" (setField (applyUpdates row d).1 "updated_at" (vDate s.clock)))),
              changed_fields := some (applyUpdates row d).2,
              author := some "system",
              commit_id := "commit-" ++ toString s.db.nextAuditRowId,
              commit_date := s.clock, created_at := s.clock } := rfl
  refine ⟨{ s with
      db := { s.db with
        users := (replaceRow s.db.users uid (setField (applyUpdates row d).1 "updated_at" (vDate s.clock))),
        auditLogs := (s.db.auditLogs ++
          [{ id := s.db.nextAuditRowId, transaction_id := tid,
             entity_type := "User",
             entity_id := reprIdStr (.orm "User" (setField (applyUpdates row d).1 "updated_at" (vDate s.clock))),
             change_type := "UPDATED",
             old_values := some (userOldValues row),
             new_values := some (extractEntityValues (.orm "User" (setField (applyUpdates row d).1 "updated_at" (vDate s.clock)))),
             changed_fields := some (applyUpdates row d).2,
             author := some "system",
             commit_id := "commit-" ++ toString s.db.nextAuditRowId,
             commit_date := s.clock, created_at := s.clock }]),
        nextAuditRowId := s.db.nextAuditRowId + 1 },
      javers := startTransaction s.javers tid "system" },
    [{ rtype := some "user", op := some "update", success := some true,
       error := none, target_id := some uid,
       old_values := some (userOldValues row),
       new_values := some (userNewValues (setField (applyUpdates row d).1 "updated_at" (vDate s.clock))),
       data := none }],
    { id := s.db.nextAuditRowId, transaction_id := tid,
      entity_type := "User",
      entity_id := reprIdStr (.orm "User" (setField (applyUpdates row d).1 "updated_at" (vDate s.clock))),
      change_type := "UPDATED",
      old_values := some (userOldValues row),
      new_values := some (extractEntityValues (.orm "User" (setField (applyUpdates row d).1 "updated_at" (vDate s.clock)))),
      changed_fields := some (applyUpdates row d).2,
      author := some "system",
      commit_id := "commit-" ++ toString s.db.nextAuditRowId,
      commit_date := s.clock, created_at := s.clock }, ?_, rfl, rfl, ?_, rfl⟩
  · simp only [executeTransactionOperations, hl, hs, if_false, hrun, if_true,
      auditPhase, hcommit]
  · show some (applyUpdates row d).2 = some []
    rw [hdiff]

theorem empty_diff_still_recorded_witness :
    lookupTxn sampleExecState.db.transactions "t1" = some sampleTxnRow ∧
    ¬ sampleTxnRow.status = "completed" ∧
    lookupRow sampleExecState.db.users 1 = some sampleUserRow ∧
    (applyUpdates sampleUserRow [("username", vStr "alice")]).2 = [] ∧
    (((executeTransactionOperations "t1"
        [{ type := some "user", operation := some "update", user_id := some 1,
           product_id := none, data := some [("username", vStr "alice")] }]
        true (fun _ => true) sampleExecState).1).db.auditLogs).map
      (fun l => (l.change_type, l.changed_fields, l.transaction_id))
      = [("UPDATED", some [], "t1")] := by
  obtain ⟨s2, results, log, h1, h2, h3, h4, h5⟩ :=
    empty_diff_still_recorded sampleExecState "t1" sampleTxnRow 1 sampleUserRow
      [("username", vStr "alice")] (by decide) (by decide) (by decide) (by decide)
  refine ⟨by decide, by decide, by decide, by decide, ?_⟩
  have hfst : (executeTransactionOperations "t1"
      [{ type := some "user", operation := some "update", user_id := some 1,
         product_id := none, data := some [("username", vStr "alice")] }]
      true (fun _ => true) sampleExecState).1 = s2 := by
    rw [h1]
  rw [hfst, h2]
  show List.map _ ([] ++ [log]) = _
  simp [h3, h4, h5]

/-- Claim C9: the audit table is append-only across every operation the
system exposes — any request sequence leaves the existing rows in place,
only appending a suffix — and an entry once persisted is still returned, in
full, by the later by-transaction query and by the later entity-history
query (which are pure views over the stored rows). -/
theorem audit_entries_append_only (s : SysState) (ops : List SysOp)
    (e : AuditLog) (he : e ∈ s.db.auditLogs) :
    (∃ extra, (runSys s ops).db.auditLogs = s.db.auditLogs ++ extra) ∧
    e ∈ (runSys s ops).db.auditLogs ∧
    changeViewOf e ∈ getChangesForTransaction (runSys s ops).db e.transaction_id ∧
    historyViewOf e ∈ getEntityHistory (runSys s ops).db e.entity_type e.entity_id := by
  obtain ⟨extra, hx⟩ := runSys_append_only ops s
  have hmem : e ∈ (runSys s ops).db.auditLogs := by
    rw [hx]; exact List.mem_append_left _ he
  refine ⟨⟨extra, hx⟩, hmem, ?_, ?_⟩
  · unfold getChangesForTransaction
    refine List.mem_map.mpr ⟨e, ?_, rfl⟩
    refine List.mem_filter.mpr ⟨hmem, by simp⟩
  · unfold getEntityHistory
    refine List.mem_map.mpr ⟨e, ?_, rfl⟩
    refine (mem_sortByDesc _ _ _).mpr ?_
    refine List.mem_filter.mpr ⟨hmem, by simp⟩

def c9Log : AuditLog :=
  { id := 1, transaction_id := "t1", entity_type := "User", entity_id := "1",
    change_type := "CREATED", old_values := none,
    new_values := some [("id", vInt 1)], changed_fields := none,
    author := some "system", commit_id := "c1", commit_date := 0,
    created_at := 0 }

def c9State : SysState :=
  { db := { sampleDB with auditLogs := [c9Log] },
    javers := { current_transaction_id := none, current_author := none },
    clock := 0 }

def c9Ops : List SysOp :=
  [.userDelete 1, .txnCreate "t9" "d9", .txnDelete "t9",
   .productUpdate 1 [("price", vInt 500)]]

theorem audit_entries_append_only_witness :
    c9Log ∈ c9State.db.auditLogs ∧
    c9Log ∈ (runSys c9State c9Ops).db.auditLogs ∧
    changeViewOf c9Log ∈ getChangesForTransaction (runSys c9State c9Ops).db "t1" ∧
    historyViewOf c9Log ∈ getEntityHistory (runSys c9State c9Ops).db "User" "1" := by
  have h := audit_entries_append_only c9State c9Ops c9Log (by decide)
  exact ⟨by decide, h.2.1, h.2.2.1, h.2.2.2⟩

lemma lookupRow_replaceRow (tbl : List (Int × Obj)) (pk : Int) (row : Obj)
    (h : (lookupRow tbl pk).isSome) :
    lookupRow (replaceRow tbl pk row) pk = some row := by
  induction tbl with
  | nil => simp [lookupRow] at h
  | cons kr rest ih =>
    obtain ⟨k, r⟩ := kr
    by_cases hk : k = pk
    · subst hk
      have hhead : (if (k, r).1 = k then (k, row) else (k, r)) = (k, row) :=
        if_pos rfl
      show lookupRow
        (List.map (fun q => if q.1 = k then (k, row) else q) ((k, r) :: rest)) k
          = some row
      rw [List.map_cons, hhead]
      show (if k = k then some row
        else lookupRow (List.map (fun q => if q.1 = k then (k, row) else q) rest) k)
          = some row
      rw [if_pos rfl]
    · have hhead : (if (k, r).1 = pk then (pk, row) else (k, r)) = (k, r) :=
        if_neg hk
      show lookupRow
        (List.map (fun q => if q.1 = pk then (pk, row) else q) ((k, r) :: rest)) pk
          = some row
      rw [List.map_cons, hhead]
      show (if k = pk then some r
        else lookupRow (List.map (fun q => if q.1 = pk then (pk, row) else q) rest) pk)
          = some row
      rw [if_neg hk]
      simp only [lookupRow, if_neg hk] at h
      exact ih h

/-- Claim C10: an update payload field that is not an attribute of the
target entity is silently ignored by both handlers: the operation still
returns a success result with no error field, the field never enters the
changed-field list, and it is not applied — neither the diff loop nor the
final row (aside from the separately stamped updated_at column) gains the
field. -/
theorem unknown_field_silently_ignored (db : DB) (now : Nat) (uid pid : Int)
    (d : List (String × Value)) (urow prow : Obj) (f : String) (v : Value)
    (hu : lookupRow db.users uid = some urow)
    (hp : lookupRow db.products pid = some prow)
    (hfu : lookupField urow f = none)
    (hfp : lookupField prow f = none)
    (_hmem_d : (f, v) ∈ d) :
    (∃ db2 draft,
        execUserOperation
            { type := some "user", operation := some "update",
              user_id := some uid, product_id := none, data := some d } db now
          = (db2, .pair
              { rtype := some "user", op := some "update", success := some true,
                error := none, target_id := some uid,
                old_values := some (userOldValues urow),
                new_values := some (userNewValues (setField (applyUpdates urow d).1 "updated_at" (vDate now))),
                data := none } draft) ∧
        draft.changed_fields = some (applyUpdates urow d).2 ∧
        db2.users = replaceRow db.users uid (setField (applyUpdates urow d).1 "updated_at" (vDate now))) ∧
    f ∉ (applyUpdates urow d).2 ∧
    lookupField (applyUpdates urow d).1 f = none ∧
    (¬ f = "updated_at" →
      lookupField (setField (applyUpdates urow d).1 "updated_at" (vDate now)) f = none) ∧
    (∃ db2 draft,
        execProductOperation
            { type := some "product", operation := some "update",
              user_id := none, product_id := some pid, data := some d } db now
          = (db2, .pair
              { rtype := some "product", op := some "update", success := some true,
                error := none, target_id := some pid,
                old_values := some (productOldValues prow),
                new_values := some (productNewValues (setField (applyUpdates prow d).1 "updated_at" (vDate now))),
                data := none } draft) ∧
        draft.changed_fields = some (applyUpdates prow d).2 ∧
        db2.users = db.users) ∧
    f ∉ (applyUpdates prow d).2 ∧
    lookupField (applyUpdates prow d).1 f = none ∧
    (¬ f = "updated_at" →
      lookupField (setField (applyUpdates prow d).1 "updated_at" (vDate now)) f = none) := by
  refine ⟨?_, applyUpdates_changed_not_mem urow d f hfu,
    applyUpdates_lookup_none urow d f hfu, ?_, ?_,
    applyUpdates_changed_not_mem prow d f hfp,
    applyUpdates_lookup_none prow d f hfp, ?_⟩
  · refine ⟨{ db with users := (replaceRow db.users uid (setField (applyUpdates urow d).1 "updated_at" (vDate now))) },
      { entity := .orm "User" (setField (applyUpdates urow d).1 "updated_at" (vDate now)),
        message := "User updated", change_type := "UPDATED",
        old_values := some (userOldValues urow),
        changed_fields := some (applyUpdates urow d).2,
        entity_type := none, entity_id := none }, ?_, rfl, rfl⟩
    simp only [execUserOperation, hu]
    rfl
  · intro hne
    rw [lookupField_setField_ne _ _ _ _ hne]
    exact applyUpdates_lookup_none urow d f hfu
  · refine ⟨{ db with products := (replaceRow db.products pid (setField (applyUpdates prow d).1 "updated_at" (vDate now))) },
      { entity := .orm "Product" (setField (applyUpdates prow d).1 "updated_at" (vDate now)),
        message := "Product updated", change_type := "UPDATED",
        old_values := some (productOldValues prow),
        changed_fields := some (applyUpdates prow d).2,
        entity_type := none, entity_id := none }, ?_, rfl, rfl⟩
    simp only [execProductOperation, hp]
    rfl
  · intro hne
    rw [lookupField_setField_ne _ _ _ _ hne]
    exact applyUpdates_lookup_none prow d f hfp

theorem unknown_field_silently_ignored_witness :
    lookupRow sampleDB.users 1 = some sampleUserRow ∧
    lookupRow sampleDB.products 1 = some sampleProductRow ∧
    lookupField sampleUserRow "nickname" = none ∧
    lookupField sampleProductRow "nickname" = none ∧
    ("nickname", vStr "zed") ∈ [("nickname", vStr "zed")] ∧
    "nickname" ∉ (applyUpdates sampleUserRow [("nickname", vStr "zed")]).2 ∧
    lookupField (applyUpdates sampleUserRow [("nickname", vStr "zed")]).1 "nickname" = none ∧
    lookupField (setField (applyUpdates sampleUserRow [("nickname", vStr "zed")]).1 "updated_at" (vDate 4)) "nickname" = none := by
  have h := unknown_field_silently_ignored sampleDB 4 1 1
    [("nickname", vStr "zed")] sampleUserRow sampleProductRow "nickname"
    (vStr "zed") (by decide) (by decide) (by decide) (by decide)
    (List.mem_singleton.mpr rfl)
  exact ⟨by decide, by decide, by decide, by decide, List.mem_singleton.mpr rfl,
    h.2.1, h.2.2.1, h.2.2.2.1 (by decide)⟩
